import Mathlib

/-!
# Verification of the self-learning-system memory core

Shallow embedding of the Phase-3 memory subsystem of the repository:
`PatternStorage` (src/phase3/pattern-storage/PatternStorage.ts),
`KnowledgeBase` (src/phase3/knowledge-base), `LearningModel`
(src/phase3/learning-model/LearningModel.ts) and the orchestrating
`MemoryStorageSystem` (src/phase3/index.ts).

Modelling conventions:
* JS `Map` objects are embedded as association lists in insertion order
  (`Map.set` updates an existing key in place, otherwise appends, matching
  JS iteration-order semantics).
* JS numbers are embedded as `Rat` (for confidences, strengths, features)
  or `Int` (timestamps, frequencies); every arithmetic operation performed
  by the code stays exact at the magnitudes involved.
* `Date.now()` is passed in explicitly as a `now : Int` argument; every
  `Date.now()` read inside one public operation is modelled as the same
  instant.
* File persistence is not modelled: the in-memory maps are the state, and
  `initialize`-time bulk loading is represented by running the init
  function on a state whose maps already hold the loaded records.
* Fallible operations return `Except String`; the error value
  `"NotInitialized"` stands for the `must be initialized` exception the
  source throws from `ensureInitialized`.
-/

set_option maxRecDepth 4000

namespace SelfLearning

/-- Left brace character as a string (used when serializing JSON objects). -/
def lbrace : String := String.mk [Char.ofNat 123]

/-- Right brace character as a string (used when serializing JSON objects). -/
def rbrace : String := String.mk [Char.ofNat 125]

/-- Double-quote character as a string. -/
def dquote : String := String.mk [Char.ofNat 34]

/-- Association-list lookup; models `Map.get` / `Map.has` on a JS `Map`. -/
def lookupA {α : Type} (k : String) : List (String × α) → Option α
  | [] => none
  | (k₂, v) :: rest => if k₂ = k then some v else lookupA k rest

/-- Association-list insert-or-update; models `Map.set`: an existing key keeps
its position in insertion order, a new key is appended at the end. -/
def setA {α : Type} (k : String) (v : α) : List (String × α) → List (String × α)
  | [] => [(k, v)]
  | (k₂, v₂) :: rest => if k₂ = k then (k, v) :: rest else (k₂, v₂) :: setA k v rest

/-- Association-list removal; models `Map.delete`. -/
def eraseA {α : Type} (k : String) : List (String × α) → List (String × α)
  | [] => []
  | (k₂, v₂) :: rest => if k₂ = k then rest else (k₂, v₂) :: eraseA k rest

/-- JSON-ish dynamic value, the embedding of the `any` values stored in
`data: Record<string, any>` fields. Objects keep field insertion order. -/
inductive JValue : Type where
  | jnum : Rat → JValue
  | jbool : Bool → JValue
  | jstr : String → JValue
  | jarr : List JValue → JValue
  | jobj : List (String × JValue) → JValue

/-- JS truthiness of a `JValue` (`0`, `false` and `""` are falsy; arrays and
objects are always truthy). An absent field is handled by the callers. -/
def jtruthy : JValue → Bool
  | .jnum q => decide (q ≠ 0)
  | .jbool b => b
  | .jstr s => decide (s ≠ "")
  | .jarr _ => true
  | .jobj _ => true

/-- Decimal digits of a natural number (JS `Number.prototype.toString` on an
integer-valued number). -/
def natToJs (n : Nat) : String := toString n

/-- JS decimal rendering of an integer. -/
def intToJs (i : Int) : String := toString i

/-- Smallest exponent `k ≤ 30` with `den ∣ 10 ^ k`, if any. -/
def pow10Exp (den : Nat) : Option Nat := (List.range 31).find? (fun k => den ∣ 10 ^ k)

/-- Pad a digit string with leading zeros up to length `k`. -/
def padZeros (s : String) (k : Nat) : String :=
  String.mk (List.replicate (k - s.length) (Char.ofNat 48)) ++ s

/-- Strip trailing zero characters. -/
def stripTrailingZeros (s : String) : String :=
  String.mk (s.data.reverse.dropWhile (fun c => c = Char.ofNat 48)).reverse

/-- JS rendering of a number embedded as a rational. Integers print without
a decimal point; terminating decimal fractions (denominator dividing a power
of ten) print as the shortest decimal, which agrees with JS `toString` for
the decimal literals this program manipulates unchanged. -/
def ratToJs (q : Rat) : String :=
  if q.den = 1 then intToJs q.num
  else
    match pow10Exp q.den with
    | some k =>
      let sign := if q.num < 0 then "-" else ""
      let scaled : Nat := (q.num * (10 : Int) ^ k / (q.den : Int)).natAbs
      let ip := scaled / 10 ^ k
      let fp := scaled % 10 ^ k
      sign ++ natToJs ip ++ "." ++ stripTrailingZeros (padZeros (natToJs fp) k)
    | none => intToJs q.num ++ "/" ++ natToJs q.den

/-- JSON string escaping for the quote and backslash characters (the only
escapes the serialized values of this development can require). -/
def jsonEscapeChar (c : Char) : String :=
  if c = Char.ofNat 34 then String.mk [Char.ofNat 92, Char.ofNat 34]
  else if c = Char.ofNat 92 then String.mk [Char.ofNat 92, Char.ofNat 92]
  else String.mk [c]

/-- `JSON.stringify` of a string value. -/
def jsonQuote (s : String) : String :=
  dquote ++ String.join (s.data.map jsonEscapeChar) ++ dquote

mutual

/-- `JSON.stringify` of a dynamic value (no spacing, insertion-ordered keys,
as produced by `JSON.stringify` with no formatting arguments). -/
def jsonOfJValue : JValue → String
  | .jnum q => ratToJs q
  | .jbool b => cond b "true" "false"
  | .jstr s => jsonQuote s
  | .jarr xs => "[" ++ jsonOfArr xs ++ "]"
  | .jobj fs => lbrace ++ jsonOfFields fs ++ rbrace

/-- Comma-separated serialization of array elements. -/
def jsonOfArr : List JValue → String
  | [] => ""
  | [x] => jsonOfJValue x
  | x :: y :: rest => jsonOfJValue x ++ "," ++ jsonOfArr (y :: rest)

/-- Comma-separated serialization of object fields. -/
def jsonOfFields : List (String × JValue) → String
  | [] => ""
  | [(k, v)] => jsonQuote k ++ ":" ++ jsonOfJValue v
  | (k, v) :: f :: rest => jsonQuote k ++ ":" ++ jsonOfJValue v ++ "," ++ jsonOfFields (f :: rest)

end

mutual

/-- JS `String(value)` coercion as used in template literals and
`Array.prototype.join`: strings pass through, numbers print in decimal,
arrays join their elements with commas, objects print `[object Object]`. -/
def jsDisplay : JValue → String
  | .jnum q => ratToJs q
  | .jbool b => cond b "true" "false"
  | .jstr s => s
  | .jarr xs => jsDisplayArr "," xs
  | .jobj _ => "[object Object]"

/-- `Array.prototype.join(sep)` over dynamic values. -/
def jsDisplayArr (sep : String) : List JValue → String
  | [] => ""
  | [x] => jsDisplay x
  | x :: y :: rest => jsDisplay x ++ sep ++ jsDisplayArr sep (y :: rest)

end

/-- Wrap an integer to a 32-bit signed integer, the conversion JS applies to
operands of bitwise operators (`hash & hash`, `hash << 5`). -/
def toInt32 (x : Int) : Int := (x + 2 ^ 31) % 2 ^ 32 - 2 ^ 31

/-- One step of the rolling 32-bit string hash
`hash = ((hash << 5) - hash) + charCode; hash = hash & hash`.
`hash << 5` itself wraps to 32 bits before the subtraction, which is exact. -/
def hashStep (h : Int) (c : Nat) : Int := toInt32 (toInt32 (h * 32) - h + c)

/-- The character loop of the rolling hash. The accumulator is matched down
to a numeral before each recursive call; this is semantically the plain left
fold of `hashStep` (theorem `hashLoop_eq_foldl` below) but keeps kernel
evaluation of concrete hashes iterative instead of building a deep thunk. -/
def hashLoop : List Char → Int → Int
  | [], h => h
  | c :: rest, h =>
    match hashStep h c.toNat with
    | .ofNat 0 => hashLoop rest (.ofNat 0)
    | .ofNat (Nat.succ m) => hashLoop rest (.ofNat (Nat.succ m))
    | .negSucc 0 => hashLoop rest (.negSucc 0)
    | .negSucc (Nat.succ m) => hashLoop rest (.negSucc (Nat.succ m))

/-- The rolling character-code hash used by `PatternStorage.hashData` and
`LearningModel.createFeaturesFromPattern`. Characters are taken as UTF-16
code units; all concrete inputs in this development are ASCII, where the
Unicode scalar value and the code unit coincide. -/
def hashString (s : String) : Int := hashLoop s.data 0

/-- `hashLoop` is exactly the left fold of `hashStep` over the characters. -/
theorem hashLoop_eq_foldl (l : List Char) (h : Int) :
    hashLoop l h = l.foldl (fun h c => hashStep h c.toNat) h := by
  induction l generalizing h with
  | nil => rfl
  | cons c rest ih =>
    show (match hashStep h c.toNat with
      | .ofNat 0 => hashLoop rest (.ofNat 0)
      | .ofNat (Nat.succ m) => hashLoop rest (.ofNat (Nat.succ m))
      | .negSucc 0 => hashLoop rest (.negSucc 0)
      | .negSucc (Nat.succ m) => hashLoop rest (.negSucc (Nat.succ m))) = _
    rcases hv : hashStep h c.toNat with n | n
    · cases n <;> simp [List.foldl, ← ih, hv]
    · cases n <;> simp [List.foldl, ← ih, hv]

/-- Lowercase hexadecimal digit. -/
def hexDigit (n : Nat) : Char := if n < 10 then Char.ofNat (48 + n) else Char.ofNat (87 + n)

/-- Digit-at-a-time accumulator for `natToHex`; the fuel argument only bounds
the digit count (any fuel of at least the digit count yields the digits). -/
def natToHexAux : Nat → Nat → List Char → List Char
  | 0, _, acc => acc
  | Nat.succ fuel, n, acc =>
    if n < 16 then hexDigit n :: acc
    else natToHexAux fuel (n / 16) (hexDigit (n % 16) :: acc)

/-- Lowercase hexadecimal rendering, JS `Number.prototype.toString(16)` on a
nonnegative integer. -/
def natToHex (n : Nat) : String :=
  String.mk (natToHexAux (n + 1) n [])

/-- `PatternStorage.hashData` applied to an already-serialized JSON string:
`Math.abs(hash).toString(16)`. -/
def hashData (s : String) : String := natToHex (hashString s).natAbs

/-- `PatternMetadata` record: `{confidence, frequency, lastSeen, tags, source}`. -/
structure PatternMetadata where
  confidence : Rat
  frequency : Int
  lastSeen : Int
  tags : List String
  source : String

/-- The candidate record passed to `savePattern`
(`Omit<Pattern, 'id' | 'createdAt' | 'updatedAt'>`). -/
structure Candidate where
  type : String
  data : List (String × JValue)
  metadata : PatternMetadata
  expiresAt : Option Int := none

/-- A stored `Pattern` record. -/
structure Pattern where
  id : String
  type : String
  data : List (String × JValue)
  metadata : PatternMetadata
  createdAt : Int
  updatedAt : Int
  expiresAt : Option Int

/-- `JSON.stringify` of a `PatternMetadata` object, fields in declaration
order (`confidence, frequency, lastSeen, tags, source`), the order used by
every object literal in the repository. -/
def metadataJson (m : PatternMetadata) : JValue :=
  .jobj [("confidence", .jnum m.confidence), ("frequency", .jnum m.frequency),
         ("lastSeen", .jnum m.lastSeen), ("tags", .jarr (m.tags.map .jstr)),
         ("source", .jstr m.source)]

/-- The JSON serialization of a candidate as hashed by
`PatternStorage.hashData(pattern)`: `JSON.stringify` over the whole candidate
object, with fields in the order the repository constructs them
(`type, data, metadata`, then `expiresAt` when present). -/
def candidateJson (c : Candidate) : String :=
  jsonOfJValue (.jobj
    ([("type", .jstr c.type), ("data", .jobj c.data), ("metadata", metadataJson c.metadata)] ++
      match c.expiresAt with
      | some e => [("expiresAt", .jnum e)]
      | none => []))

/-- `PatternStorage.generatePatternId`: the type, a dash, and the 32-bit hash
of the serialized candidate in hex. Note the hash covers the entire candidate
object (`this.hashData(pattern)`), not only `(type, data)`. -/
def generatePatternId (c : Candidate) : String :=
  c.type ++ "-" ++ hashData (candidateJson c)

/-- A `PatternVersion` snapshot. -/
structure PatternVersion where
  patternId : String
  version : Nat
  data : List (String × JValue)
  metadata : PatternMetadata
  timestamp : Int

namespace PatternStorage

/-- In-memory state of a `PatternStorage` instance. -/
structure State where
  maxVersions : Nat
  defaultExpirationDays : Int
  patterns : List (String × Pattern)
  versions : List (String × List PatternVersion)
  initialized : Bool

/-- The constructor: `config?.maxVersions || 10` and
`config?.defaultExpirationDays || 30` (`||`, so an explicit `0` also falls
back to the default). -/
def newState (maxVersions? : Option Nat := none) (days? : Option Int := none) : State :=
  { maxVersions := match maxVersions? with
      | some n => if n = 0 then 10 else n
      | none => 10,
    defaultExpirationDays := match days? with
      | some d => if d = 0 then 30 else d
      | none => 30,
    patterns := [], versions := [], initialized := false }

/-- The truthy expiration test `pattern.expiresAt && now > pattern.expiresAt`:
an absent `expiresAt` never expires, and neither does the (falsy) value `0`. -/
def truthyExpired (e : Option Int) (now : Int) : Bool :=
  match e with
  | some v => decide (v ≠ 0) && decide (now > v)
  | none => false

/-- `createVersion`: snapshot a pattern, numbering the snapshot
`versions.length + 1`, append it, and drop the head (`Array.shift`) when the
list exceeds `maxVersions`. -/
def createVersion (st : State) (p : Pattern) (now : Int) : State :=
  let versions := (lookupA p.id st.versions).getD []
  let nextVersion := versions.length + 1
  let v : PatternVersion := ⟨p.id, nextVersion, p.data, p.metadata, now⟩
  let versions := versions ++ [v]
  let versions := if versions.length > st.maxVersions then versions.tail else versions
  { st with versions := setA p.id versions st.versions }

/-- `savePattern`: id from `generatePatternId`, `expiresAt` defaulting to
`now + defaultExpirationDays` in days (`??`, nullish coalescing), `createdAt`
and `updatedAt` both set to `now`, with a version snapshot of any existing
record under the same id taken first. -/
def savePattern (st : State) (c : Candidate) (now : Int) :
    Except String (Pattern × State) :=
  if !st.initialized then .error "NotInitialized" else
  let id := generatePatternId c
  let expiresAt := match c.expiresAt with
    | some e => some e
    | none => some (now + st.defaultExpirationDays * 86400000)
  let newPattern : Pattern := ⟨id, c.type, c.data, c.metadata, now, now, expiresAt⟩
  let st₁ := match lookupA id st.patterns with
    | some existing => createVersion st existing now
    | none => st
  .ok (newPattern, { st₁ with patterns := setA id newPattern st₁.patterns })

/-- The state change of `deletePattern` (pattern and version history removed). -/
def deleteCore (st : State) (id : String) : State :=
  { st with patterns := eraseA id st.patterns, versions := eraseA id st.versions }

/-- `deletePattern`: removes the pattern and its versions, reporting whether
anything was removed. -/
def deletePattern (st : State) (id : String) :
    Except String (Bool × State) :=
  if !st.initialized then .error "NotInitialized" else
  match lookupA id st.patterns with
  | none => .ok (false, st)
  | some _ => .ok (true, deleteCore st id)

/-- `getPattern`: `null` when absent; when present but (truthily) expired,
deletes the record as a side effect and returns `null`. -/
def getPattern (st : State) (id : String) (now : Int) :
    Except String (Option Pattern × State) :=
  if !st.initialized then .error "NotInitialized" else
  match lookupA id st.patterns with
  | none => .ok (none, st)
  | some p =>
    if truthyExpired p.expiresAt now then .ok (none, deleteCore st id)
    else .ok (some p, st)

/-- `Partial<PatternMetadata>` update record. -/
structure MetadataUpdate where
  confidence : Option Rat := none
  frequency : Option Int := none
  lastSeen : Option Int := none
  tags : Option (List String) := none
  source : Option String := none

/-- `PatternUpdate` record. -/
structure PatternUpdate where
  data : Option (List (String × JValue)) := none
  metadata : MetadataUpdate := {}
  expiresAt : Option Int := none

/-- The metadata spread `{ ...pattern.metadata, ...update.metadata }`. -/
def mergeMetadata (m : PatternMetadata) (u : MetadataUpdate) : PatternMetadata :=
  ⟨u.confidence.getD m.confidence, u.frequency.getD m.frequency,
    u.lastSeen.getD m.lastSeen, u.tags.getD m.tags, u.source.getD m.source⟩

/-- `updatePattern`: `null` for an unknown id; otherwise snapshot the current
state into a version, then apply the partial update, refreshing `updatedAt`. -/
def updatePattern (st : State) (id : String) (u : PatternUpdate) (now : Int) :
    Except String (Option Pattern × State) :=
  if !st.initialized then .error "NotInitialized" else
  match lookupA id st.patterns with
  | none => .ok (none, st)
  | some p =>
    let st₁ := createVersion st p now
    let updated : Pattern :=
      { p with data := u.data.getD p.data,
               metadata := mergeMetadata p.metadata u.metadata,
               expiresAt := match u.expiresAt with
                 | some e => some e
                 | none => p.expiresAt,
               updatedAt := now }
    .ok (some updated, { st₁ with patterns := setA id updated st₁.patterns })

/-- `PatternQuery` filter. -/
structure PatternQuery where
  type : Option String := none
  tags : Option (List String) := none
  minConfidence : Option Rat := none
  minFrequency : Option Int := none
  createdAfter : Option Int := none
  createdBefore : Option Int := none
  notExpired : Bool := false

/-- One pattern against a `PatternQuery`, clause for clause as in the source:
`type`, `createdAfter` and `createdBefore` guards use JS truthiness (so an
empty string or `0` disables them), while `minConfidence` / `minFrequency`
use an explicit `!== undefined` check. -/
def matchesQuery (q : PatternQuery) (p : Pattern) (now : Int) : Bool :=
  (!(q.notExpired && truthyExpired p.expiresAt now)) &&
  (match q.type with
    | some t => decide (t = "") || decide (p.type = t)
    | none => true) &&
  (match q.tags with
    | some ts => decide (ts.length = 0) || ts.all (fun t => p.metadata.tags.contains t)
    | none => true) &&
  (match q.minConfidence with
    | some mc => decide (p.metadata.confidence ≥ mc)
    | none => true) &&
  (match q.minFrequency with
    | some mf => decide (p.metadata.frequency ≥ mf)
    | none => true) &&
  (match q.createdAfter with
    | some a => decide (a = 0) || decide (p.createdAt ≥ a)
    | none => true) &&
  (match q.createdBefore with
    | some b => decide (b = 0) || decide (p.createdAt ≤ b)
    | none => true)

/-- `queryPatterns`: linear scan over the map in insertion order. -/
def queryPatterns (st : State) (q : PatternQuery) (now : Int) :
    Except String (List Pattern) :=
  if !st.initialized then .error "NotInitialized" else
  .ok ((st.patterns.map Prod.snd).filter (fun p => matchesQuery q p now))

/-- `getPatternVersions`. -/
def getPatternVersions (st : State) (id : String) :
    Except String (List PatternVersion) :=
  if !st.initialized then .error "NotInitialized" else
  .ok ((lookupA id st.versions).getD [])

/-- `restorePattern`: version the current state, then overwrite with the
historical snapshot (`type`/`createdAt` fall back through `||`, so a falsy
current value also falls back). -/
def restorePattern (st : State) (id : String) (vnum : Nat) (now : Int) :
    Except String (Option Pattern × State) :=
  if !st.initialized then .error "NotInitialized" else
  match lookupA id st.versions with
  | none => .ok (none, st)
  | some versions =>
    if versions.length = 0 then .ok (none, st) else
    match versions.find? (fun v => v.version = vnum) with
    | none => .ok (none, st)
    | some vd =>
      let current := lookupA id st.patterns
      let st₁ := match current with
        | some cur => createVersion st cur now
        | none => st
      let restored : Pattern :=
        { id := id,
          type := match current with
            | some cur => if cur.type = "" then "unknown" else cur.type
            | none => "unknown",
          data := vd.data, metadata := vd.metadata,
          createdAt := match current with
            | some cur => if cur.createdAt = 0 then now else cur.createdAt
            | none => now,
          updatedAt := now,
          expiresAt := current.bind (fun cur => cur.expiresAt) }
      .ok (some restored, { st₁ with patterns := setA id restored st₁.patterns })

/-- `byType[type] = (byType[type] || 0) + 1` over a JS object in key insertion
order. -/
def bumpCount (k : String) : List (String × Nat) → List (String × Nat)
  | [] => [(k, 1)]
  | (k₂, n) :: rest => if k₂ = k then (k, n + 1) :: rest else (k₂, n) :: bumpCount k rest

/-- `getStats` result. -/
structure Stats where
  totalPatterns : Nat
  totalVersions : Nat
  byType : List (String × Nat)

/-- `getStats`. Note the source method performs no `ensureInitialized` check. -/
def getStats (st : State) : Stats :=
  { totalPatterns := st.patterns.length,
    totalVersions := (st.versions.map (fun kv => kv.2.length)).sum,
    byType := st.patterns.foldl (fun acc kv => bumpCount kv.2.type acc) [] }

/-- `cleanExpiredPatterns`: collect ids of (truthily) expired patterns, then
delete them. -/
def cleanExpiredPatterns (st : State) (now : Int) : State :=
  let expiredIds := (st.patterns.filter (fun kv => truthyExpired kv.2.expiresAt now)).map Prod.fst
  expiredIds.foldl deleteCore st

/-- `initialize`: idempotent; purges expired records, then marks the instance
initialized. The bulk file load is represented by the records already in the
state. -/
def initStore (st : State) (now : Int) : State :=
  if st.initialized then st
  else { cleanExpiredPatterns st now with initialized := true }

end PatternStorage

/-- Knowledge item kind: `fact | rule | relationship | concept`. -/
inductive KnowledgeType : Type where
  | fact | rule | relationship | concept
deriving DecidableEq

/-- The string name of a knowledge type (JS stores the kind as a string). -/
def kTypeName : KnowledgeType → String
  | .fact => "fact"
  | .rule => "rule"
  | .relationship => "relationship"
  | .concept => "concept"

/-- `KnowledgeMetadata` record. -/
structure KnowledgeMetadata where
  confidence : Rat
  sources : List String
  frequency : Int
  tags : List String
  lastVerified : Option Int := none

/-- A `KnowledgeItem` record. -/
structure KnowledgeItem where
  id : String
  patternId : String
  type : KnowledgeType
  content : String
  structuredData : List (String × JValue)
  metadata : KnowledgeMetadata
  createdAt : Int
  updatedAt : Int

/-- Relationship kind: `causal | temporal | hierarchical | associative |
contradictory`. -/
inductive RelationshipType : Type where
  | causal | temporal | hierarchical | associative | contradictory
deriving DecidableEq

/-- A `KnowledgeRelationship` record. -/
structure KnowledgeRelationship where
  id : String
  fromId : String
  toId : String
  type : RelationshipType
  strength : Rat
  metadata : Option (List (String × JValue)) := none

namespace KnowledgeBase

/-- In-memory state of a `KnowledgeBase` instance. The source draws fresh ids
from `Date.now()` plus `Math.random()`; that external supply of
never-repeating ids is modelled by the counter `nextId` (the only faithful
shallow embedding of an id generator whose outputs never collide). -/
structure State where
  maxItems : Nat
  items : List (String × KnowledgeItem)
  relationships : List (String × KnowledgeRelationship)
  patternIndex : List (String × List String)
  tagIndex : List (String × List String)
  nextId : Nat
  initialized : Bool

/-- The constructor defaults (`maxItems ?? 10000`, nullish coalescing). -/
def newState (maxItems? : Option Nat := none) : State :=
  { maxItems := maxItems?.getD 10000, items := [], relationships := [],
    patternIndex := [], tagIndex := [], nextId := 0, initialized := false }

/-- `generateKnowledgeId` (timestamp-plus-random modelled as a fresh counter). -/
def genKnowledgeId (n : Nat) : String := "knowledge-" ++ natToJs n

/-- `generateRelationshipId` (same fresh supply). -/
def genRelationshipId (n : Nat) : String := "rel-" ++ natToJs n

/-- `initialize`: marks the store initialized; the persisted items,
relationships and rebuilt indices are represented by the maps already in the
state. Idempotent. -/
def initKB (st : State) : State :=
  if st.initialized then st else { st with initialized := true }

/-- Field lookup returning the value only when present and truthy
(the `data.field && ...` guards). -/
def truthyLookup (k : String) (data : List (String × JValue)) : Option JValue :=
  match lookupA k data with
  | some v => if jtruthy v then some v else none
  | none => none

/-- A field of a synthesized `structuredData` object, omitted when the source
value is absent (a JS `undefined`-valued key, which `JSON.stringify` and
`Object.values` both ignore). -/
def optField (k : String) (v : Option JValue) : List (String × JValue) :=
  match v with
  | some v => [(k, v)]
  | none => []

/-- Metadata every extracted item inherits from its source pattern. -/
def inheritedMetadata (p : Pattern) (extraTags : List String) (now : Int) :
    KnowledgeMetadata :=
  { confidence := p.metadata.confidence, sources := [p.metadata.source],
    frequency := p.metadata.frequency, tags := extraTags ++ p.metadata.tags,
    lastVerified := some now }

/-- `extractBehavioralKnowledge`: one `rule` item when `trigger` and `action`
are both present and truthy. -/
def extractBehavioralKnowledge (p : Pattern) (now : Int) (n : Nat) :
    List KnowledgeItem × Nat :=
  match truthyLookup "trigger" p.data, truthyLookup "action" p.data with
  | some trigger, some action =>
    ([{ id := genKnowledgeId n, patternId := p.id, type := .rule,
        content := "When " ++ jsDisplay trigger ++ ", then " ++ jsDisplay action,
        structuredData := [("trigger", trigger), ("action", action)] ++
          optField "context" (lookupA "context" p.data),
        metadata := inheritedMetadata p ["behavioral", "rule"] now,
        createdAt := now, updatedAt := now }], n + 1)
  | _, _ => ([], n)

/-- `extractTemporalKnowledge`: one `relationship` item when `sequence` is an
array. -/
def extractTemporalKnowledge (p : Pattern) (now : Int) (n : Nat) :
    List KnowledgeItem × Nat :=
  match lookupA "sequence" p.data with
  | some (.jarr xs) =>
    ([{ id := genKnowledgeId n, patternId := p.id, type := .relationship,
        content := "Temporal sequence: " ++ jsDisplayArr " -> " xs,
        structuredData := [("sequence", .jarr xs)] ++
          optField "interval" (lookupA "interval" p.data) ++
          optField "duration" (lookupA "duration" p.data),
        metadata := inheritedMetadata p ["temporal", "sequence"] now,
        createdAt := now, updatedAt := now }], n + 1)
  | _ => ([], n)

/-- `extractSequentialKnowledge`: one `rule` item when `steps` is an array. -/
def extractSequentialKnowledge (p : Pattern) (now : Int) (n : Nat) :
    List KnowledgeItem × Nat :=
  match lookupA "steps" p.data with
  | some (.jarr xs) =>
    ([{ id := genKnowledgeId n, patternId := p.id, type := .rule,
        content := "Sequential pattern: " ++ jsDisplayArr " → " xs,
        structuredData := [("steps", .jarr xs)] ++
          optField "conditions" (lookupA "conditions" p.data),
        metadata := inheritedMetadata p ["sequential", "rule"] now,
        createdAt := now, updatedAt := now }], n + 1)
  | _ => ([], n)

/-- `extractCategoricalKnowledge`: one `concept` item when `category` and
`items` are both present and truthy. -/
def extractCategoricalKnowledge (p : Pattern) (now : Int) (n : Nat) :
    List KnowledgeItem × Nat :=
  match truthyLookup "category" p.data, truthyLookup "items" p.data with
  | some category, some items =>
    ([{ id := genKnowledgeId n, patternId := p.id, type := .concept,
        content := "Category " ++ jsDisplay category ++ " contains: " ++
          (match items with
            | .jarr xs => jsDisplayArr ", " xs
            | other => jsDisplay other),
        structuredData := [("category", category), ("items", items)] ++
          optField "attributes" (lookupA "attributes" p.data),
        metadata := inheritedMetadata p ["categorical", "concept"] now,
        createdAt := now, updatedAt := now }], n + 1)
  | _, _ => ([], n)

/-- `extractGenericKnowledge`: the fallback `fact` item holding the serialized
raw data. -/
def extractGenericKnowledge (p : Pattern) (now : Int) (n : Nat) :
    KnowledgeItem × Nat :=
  ({ id := genKnowledgeId n, patternId := p.id, type := .fact,
     content := jsonOfJValue (.jobj p.data),
     structuredData := p.data,
     metadata := inheritedMetadata p ["generic"] now,
     createdAt := now, updatedAt := now }, n + 1)

/-- One candidate pair inside `analyzeRelationships`: an `associative` edge
with `strength = |common| / max(|tags a|, |tags b|)` when the two items share
at least one tag. -/
def relatePair (a b : KnowledgeItem) (n : Nat) :
    List KnowledgeRelationship × Nat :=
  let commonTags := a.metadata.tags.filter (fun t => b.metadata.tags.contains t)
  if commonTags.length > 0 then
    ([{ id := genRelationshipId n, fromId := a.id, toId := b.id,
        type := .associative,
        strength := (commonTags.length : Rat) /
          ((max a.metadata.tags.length b.metadata.tags.length : Nat) : Rat),
        metadata := some [("commonTags", .jarr (commonTags.map .jstr))] }], n + 1)
  else ([], n)

/-- Inner loop of `analyzeRelationships`: `a` against every later item. -/
def analyzeAgainst (a : KnowledgeItem) :
    List KnowledgeItem → Nat → List KnowledgeRelationship × Nat
  | [], n => ([], n)
  | b :: rest, n =>
    let (r₁, n₁) := relatePair a b n
    let (r₂, n₂) := analyzeAgainst a rest n₁
    (r₁ ++ r₂, n₂)

/-- `analyzeRelationships`: pairwise over `i < j`. -/
def analyzeRelationships :
    List KnowledgeItem → Nat → List KnowledgeRelationship × Nat
  | [], n => ([], n)
  | a :: rest, n =>
    let (r₁, n₁) := analyzeAgainst a rest n
    let (r₂, n₂) := analyzeRelationships rest n₁
    (r₁ ++ r₂, n₂)

/-- `extractKnowledge` result. -/
structure ExtractionResult where
  extractedItems : List KnowledgeItem
  relationships : List KnowledgeRelationship

/-- `extractKnowledge`: type-driven extraction followed by pairwise
relationship synthesis when more than one item was produced. The source
method performs no `ensureInitialized` check and touches no store state
beyond drawing fresh ids. -/
def extractKnowledge (st : State) (p : Pattern) (now : Int) :
    ExtractionResult × State :=
  let itemsN :=
    if p.type = "behavioral" then extractBehavioralKnowledge p now st.nextId
    else if p.type = "temporal" then extractTemporalKnowledge p now st.nextId
    else if p.type = "sequential" then extractSequentialKnowledge p now st.nextId
    else if p.type = "categorical" then extractCategoricalKnowledge p now st.nextId
    else ([(extractGenericKnowledge p now st.nextId).1],
          (extractGenericKnowledge p now st.nextId).2)
  let relsN :=
    if itemsN.1.length > 1 then analyzeRelationships itemsN.1 itemsN.2
    else ([], itemsN.2)
  (⟨itemsN.1, relsN.1⟩, { st with nextId := relsN.2 })

/-- Adding an id to a JS `Set` of ids (insertion order, no duplicates). -/
def addToIdSet (id : String) (s : List String) : List String :=
  if s.contains id then s else s ++ [id]

/-- `updatePatternIndex`. -/
def updatePatternIndex (item : KnowledgeItem) (idx : List (String × List String)) :
    List (String × List String) :=
  setA item.patternId (addToIdSet item.id ((lookupA item.patternId idx).getD [])) idx

/-- `updateTagIndex`. -/
def updateTagIndex (item : KnowledgeItem) (idx : List (String × List String)) :
    List (String × List String) :=
  item.metadata.tags.foldl
    (fun idx tag => setA tag (addToIdSet item.id ((lookupA tag idx).getD [])) idx) idx

/-- `removeFromPatternIndex`. -/
def removeFromPatternIndex (item : KnowledgeItem)
    (idx : List (String × List String)) : List (String × List String) :=
  match lookupA item.patternId idx with
  | some ids =>
    let ids := ids.filter (fun i => i ≠ item.id)
    if ids.length = 0 then eraseA item.patternId idx else setA item.patternId ids idx
  | none => idx

/-- `removeFromTagIndex`. -/
def removeFromTagIndex (item : KnowledgeItem)
    (idx : List (String × List String)) : List (String × List String) :=
  item.metadata.tags.foldl
    (fun idx tag =>
      match lookupA tag idx with
      | some ids =>
        let ids := ids.filter (fun i => i ≠ item.id)
        if ids.length = 0 then eraseA tag idx else setA tag ids idx
      | none => idx) idx

/-- The state change of `removeKnowledge` on a present id: drop the item, fix
both indices, and cascade-delete every relationship referencing the id as
either endpoint. -/
def removeCore (st : State) (id : String) : State :=
  match lookupA id st.items with
  | none => st
  | some item =>
    { st with items := eraseA id st.items,
              patternIndex := removeFromPatternIndex item st.patternIndex,
              tagIndex := removeFromTagIndex item st.tagIndex,
              relationships := st.relationships.filter
                (fun kv => !(kv.2.fromId = id || kv.2.toId = id)) }

/-- `removeKnowledge`. -/
def removeKnowledge (st : State) (id : String) : Except String (Bool × State) :=
  if !st.initialized then .error "NotInitialized" else
  match lookupA id st.items with
  | none => .ok (false, st)
  | some _ => .ok (true, removeCore st id)

/-- Stable ascending insertion by `createdAt` (JS `Array.prototype.sort` is
stable). -/
def insertByCreatedAt (e : String × KnowledgeItem) :
    List (String × KnowledgeItem) → List (String × KnowledgeItem)
  | [] => [e]
  | x :: xs =>
    if e.2.createdAt ≤ x.2.createdAt then e :: x :: xs else x :: insertByCreatedAt e xs

/-- `Array.from(items.entries()).sort((a, b) => a.createdAt - b.createdAt)`. -/
def sortByCreatedAt (l : List (String × KnowledgeItem)) :
    List (String × KnowledgeItem) :=
  l.foldr insertByCreatedAt []

/-- `pruneOldItems(count)`: remove the `count` oldest-by-creation items. -/
def pruneOldItems (st : State) (count : Nat) : State :=
  ((sortByCreatedAt st.items).take count).foldl (fun st e => removeCore st e.1) st

/-- `addKnowledge`: prune one oldest item when at `maxItems` capacity, then
insert and update both indices. -/
def addKnowledge (st : State) (item : KnowledgeItem) : Except String State :=
  if !st.initialized then .error "NotInitialized" else
  let st₁ := if st.items.length ≥ st.maxItems then pruneOldItems st 1 else st
  .ok { st₁ with items := setA item.id item st₁.items,
                 patternIndex := updatePatternIndex item st₁.patternIndex,
                 tagIndex := updateTagIndex item st₁.tagIndex }

/-- `addKnowledgeItems`: sequential `addKnowledge` over a list. -/
def addKnowledgeItems (st : State) (items : List KnowledgeItem) :
    Except String State :=
  match items with
  | [] => if !st.initialized then .error "NotInitialized" else .ok st
  | item :: rest => do
    let st₁ ←
      (if !st.initialized then .error "NotInitialized" else addKnowledge st item)
    addKnowledgeItems st₁ rest

/-- `addRelationship`: stores the relationship unconditionally — the source
performs no existence check on either endpoint. -/
def addRelationship (st : State) (rel : KnowledgeRelationship) :
    Except String State :=
  if !st.initialized then .error "NotInitialized" else
  .ok { st with relationships := setA rel.id rel st.relationships }

/-- `getKnowledge`. -/
def getKnowledge (st : State) (id : String) :
    Except String (Option KnowledgeItem) :=
  if !st.initialized then .error "NotInitialized" else
  .ok (lookupA id st.items)

/-- `getRelationship`. -/
def getRelationship (st : State) (id : String) :
    Except String (Option KnowledgeRelationship) :=
  if !st.initialized then .error "NotInitialized" else
  .ok (lookupA id st.relationships)

/-- `findRelatedItemIds`: ids adjacent to `itemId`, either direction. -/
def findRelatedItemIds (st : State) (itemId : String) : List String :=
  st.relationships.foldl
    (fun acc kv =>
      if kv.2.fromId = itemId then addToIdSet kv.2.toId acc
      else if kv.2.toId = itemId then addToIdSet kv.2.fromId acc
      else acc) []

/-- Traversal state of `findRelatedItems`: the visited id set and the result
list, in push order. -/
structure TravState where
  visited : List String
  result : List KnowledgeItem

/-- The `for (relationship of relationships)` loop body of `traverse`: an
unvisited neighbor that exists in the item map is pushed onto the result and
then recursed into at the next depth (`recurse` is the traversal one fuel
level down). -/
def travStep (items : List (String × KnowledgeItem))
    (recurse : String → TravState → TravState) (id : String)
    (ts : TravState) (r : KnowledgeRelationship) : TravState :=
  let neighborId : Option String :=
    if r.fromId = id then some r.toId
    else if r.toId = id then some r.fromId
    else none
  match neighborId with
  | some nid =>
    if ts.visited.contains nid then ts
    else
      match lookupA nid items with
      | some neighbor => recurse nid { ts with result := ts.result ++ [neighbor] }
      | none => ts
  | none => ts

/-- The recursive `traverse(id, depth)` closure of `findRelatedItems`.
`fuel` stands for `maxDepth + 1 - depth`, so `fuel = 0` is the
`depth > maxDepth` early return. A visited id returns immediately; otherwise
the id is marked visited and the `for (relationship of relationships)` loop
runs as a left fold over the relationship list. -/
def traverse (rels : List KnowledgeRelationship)
    (items : List (String × KnowledgeItem)) :
    Nat → String → TravState → TravState
  | 0, _, ts => ts
  | Nat.succ fuel, id, ts =>
    if ts.visited.contains id then ts
    else
      rels.foldl (fun ts r => travStep items (traverse rels items fuel) id ts r)
        { ts with visited := ts.visited ++ [id] }

/-- `findRelatedItems(itemId, maxDepth = 2)`. -/
def findRelatedItems (st : State) (itemId : String) (maxDepth : Nat := 2) :
    Except String (List KnowledgeItem) :=
  if !st.initialized then .error "NotInitialized" else
  .ok (traverse (st.relationships.map Prod.snd) st.items
        (maxDepth + 1) itemId ⟨[], []⟩).result

/-- Case-insensitive substring test (`String.prototype.includes` after
`toLowerCase` on both sides); the needle is nonempty in every use. -/
def strContainsSub (hay needle : String) : Bool :=
  decide ((hay.splitOn needle).length > 1)

/-- `KnowledgeQuery` filter. -/
structure KnowledgeQuery where
  type : Option KnowledgeType := none
  tags : Option (List String) := none
  patternId : Option String := none
  minConfidence : Option Rat := none
  text : Option String := none
  relatedTo : Option String := none

/-- A `queryKnowledge` search hit. -/
structure SearchResult where
  item : KnowledgeItem
  relevanceScore : Rat

/-- One item against a `KnowledgeQuery`, mirroring the source clause for
clause, including the truthiness guards (`query.patternId &&`,
`query.minConfidence &&`, `query.text`, `query.relatedTo` — so `""` or `0`
disable those filters) and the compounding score multipliers. Returns the
relevance score when the item passes. -/
def scoreItem (st : State) (q : KnowledgeQuery) (item : KnowledgeItem) :
    Option Rat := Id.run do
  let mut score : Rat := 1
  if let some t := q.type then
    if item.type ≠ t then return none
  if let some ts := q.tags then
    if ts.length > 0 then
      if !(ts.any (fun t => item.metadata.tags.contains t)) then return none
      let matched := ts.filter (fun t => item.metadata.tags.contains t)
      score := (matched.length : Rat) / (ts.length : Rat)
  if let some pid := q.patternId then
    if pid ≠ "" && item.patternId ≠ pid then return none
  if let some mc := q.minConfidence then
    if mc ≠ 0 && item.metadata.confidence < mc then return none
  if let some t := q.text then
    if t ≠ "" then
      let tl := t.toLower
      let contentMatch := strContainsSub item.content.toLower tl
      let structuredMatch :=
        strContainsSub (jsonOfJValue (.jobj item.structuredData)).toLower tl
      if !contentMatch && !structuredMatch then return none
      if contentMatch then score := score * (6 / 5 : Rat)
      if structuredMatch then score := score * (11 / 10 : Rat)
  if let some rt := q.relatedTo then
    if rt ≠ "" then
      let relatedIds := findRelatedItemIds st rt
      if !(relatedIds.contains item.id) then return none
      match (st.relationships.map Prod.snd).find?
          (fun r => r.fromId = rt || r.toId = rt) with
      | some rel => score := score * rel.strength
      | none => pure ()
  return some score

/-- Stable descending insertion by relevance score
(`sort((a, b) => b.relevanceScore - a.relevanceScore)`). -/
def insertByScore (e : SearchResult) : List SearchResult → List SearchResult
  | [] => [e]
  | x :: xs =>
    if x.relevanceScore < e.relevanceScore then e :: x :: xs
    else x :: insertByScore e xs

/-- `queryKnowledge`: scan, score, and sort strictly descending by score. -/
def queryKnowledge (st : State) (q : KnowledgeQuery) :
    Except String (List SearchResult) :=
  if !st.initialized then .error "NotInitialized" else
  .ok (((st.items.map Prod.snd).filterMap
          (fun item => (scoreItem st q item).map (fun s => SearchResult.mk item s))).foldr
        insertByScore [])

/-- `updateKnowledge` partial record. -/
structure KnowledgeUpdate where
  content : Option String := none
  structuredData : Option (List (String × JValue)) := none
  metadata : Option KnowledgeMetadata := none

/-- `updateKnowledge`: nullish-coalescing merge, refreshed `updatedAt`. -/
def updateKnowledge (st : State) (id : String) (u : KnowledgeUpdate) (now : Int) :
    Except String (Option KnowledgeItem × State) :=
  if !st.initialized then .error "NotInitialized" else
  match lookupA id st.items with
  | none => .ok (none, st)
  | some item =>
    let updated : KnowledgeItem :=
      { item with content := u.content.getD item.content,
                  structuredData := u.structuredData.getD item.structuredData,
                  metadata := u.metadata.getD item.metadata,
                  updatedAt := now }
    .ok (some updated, { st with items := setA id updated st.items })

/-- `getStats` result. -/
structure KStats where
  totalItems : Nat
  byType : List (String × Nat)
  totalRelationships : Nat
  averageConfidence : Rat

/-- `getStats`. Note the source method performs no `ensureInitialized`
check. -/
def getStats (st : State) : KStats :=
  let totalConfidence :=
    (st.items.map (fun kv => kv.2.metadata.confidence)).sum
  { totalItems := st.items.length,
    byType := st.items.foldl
      (fun acc kv => PatternStorage.bumpCount (kTypeName kv.2.type) acc) [],
    totalRelationships := st.relationships.length,
    averageConfidence :=
      if st.items.length > 0 then totalConfidence / (st.items.length : Rat) else 0 }

end KnowledgeBase

/-- `PatternFeatures` record fed to the learning model. -/
structure PatternFeatures where
  id : String
  features : List Rat
  label : String
  confidence : Rat
  frequency : Int
  timestamp : Int

namespace LearningModel

/-- The numeric feed-forward network. Its weights and the gradient updates of
`model.fit` are not numerically modelled: the model records its architecture
(input size, class count) and an append-only log of the batches it was fitted
on, which is all the claims observe. -/
structure Net where
  inputSize : Nat
  numClasses : Nat
  fitLog : List (List (List Rat) × List (List Rat))

/-- In-memory state of a `LearningModel` instance. -/
structure State where
  inputSize : Nat
  epochs : Nat
  isInitialized : Bool
  labelMap : List String
  net : Option Net

/-- Constructor defaults (`inputSize ?? 100`, `epochs ?? 10`). -/
def newState (inputSize? : Option Nat := none) (epochs? : Option Nat := none) : State :=
  { inputSize := inputSize?.getD 100, epochs := epochs?.getD 10,
    isInitialized := false, labelMap := [], net := none }

/-- `[...new Set(labels)]`: distinct labels in first-occurrence order. -/
def dedup (labels : List String) : List String :=
  labels.foldl (fun acc l => if acc.contains l then acc else acc ++ [l]) []

/-- `initialize(features)`: no-op when already initialized; otherwise fix
`inputSize` from the first feature vector (when any), fix the label map from
the distinct observed labels, and build the network. -/
def initModel (st : State) (features : List PatternFeatures) : State :=
  if st.isInitialized then st
  else
    let inputSize := match features with
      | [] => st.inputSize
      | f :: _ => f.features.length
    let labels := dedup (features.map (fun f => f.label))
    { st with inputSize := inputSize, labelMap := labels,
              net := some ⟨inputSize, labels.length, []⟩, isInitialized := true }

/-- One-hot row of length `n` with the `1` at index `i`. -/
def oneHot (n i : Nat) : List Rat :=
  (List.range n).map (fun j => if j = i then 1 else 0)

/-- `prepareTrainingData`: feature matrix plus one-hot labels, where an
unknown label silently maps to index 0 (`inverseLabelMap.get(label) ?? 0`). -/
def prepareTrainingData (st : State) (patterns : List PatternFeatures) :
    List (List Rat) × List (List Rat) :=
  (patterns.map (fun p => p.features),
   patterns.map (fun p =>
     oneHot st.labelMap.length ((st.labelMap.indexOf? p.label).getD 0)))

/-- The `ensureInitialized` / `!this.model` guard shared by the stateful
model methods. -/
def ready (st : State) : Bool := st.isInitialized && st.net.isSome

/-- `train`: full fit over the prepared data (numeric metrics abstracted). -/
def train (st : State) (patterns : List PatternFeatures) :
    Except String State :=
  if !(ready st) then .error "NotInitialized" else
  match st.net with
  | none => .error "NotInitialized"
  | some net =>
    .ok { st with net := some { net with fitLog := net.fitLog ++ [prepareTrainingData st patterns] } }

/-- `updateModel(patterns, incremental)`: when incremental, a short extra fit
on only the new data; otherwise a full `train`. Either way
`prepareTrainingData` raises no error on a previously-unseen label — it
one-hot-encodes it as index 0. -/
def updateModel (st : State) (patterns : List PatternFeatures)
    (incremental : Bool := true) : Except String State :=
  if !(ready st) then .error "NotInitialized" else
  if incremental then
    match st.net with
    | none => .error "NotInitialized"
    | some net =>
      .ok { st with net := some { net with fitLog := net.fitLog ++ [prepareTrainingData st patterns] } }
  else train st patterns

/-- `dispose`: drop the network and clear the initialized flag. -/
def dispose (st : State) : State :=
  { st with net := none, isInitialized := false }

/-- `calculateWeight`: `0.7 · confidence + 0.3 · min(frequency / 10, 1)`. -/
def calculateWeight (p : PatternFeatures) : Rat :=
  p.confidence * (7 / 10 : Rat) + min ((p.frequency : Rat) / 10) 1 * (3 / 10 : Rat)

/-- A weighted pattern. -/
structure WeightedPattern where
  id : String
  weight : Rat
  originalFeatures : PatternFeatures

/-- Stable descending insertion by weight (`sort((a, b) => b.weight - a.weight)`). -/
def insertByWeight (e : WeightedPattern) : List WeightedPattern → List WeightedPattern
  | [] => [e]
  | x :: xs => if x.weight < e.weight then e :: x :: xs else x :: insertByWeight e xs

/-- `applyWeights`: annotate with `calculateWeight` and sort descending.
Note the source method performs no `ensureInitialized` check. -/
def applyWeights (patterns : List PatternFeatures) : List WeightedPattern :=
  (patterns.map (fun p => WeightedPattern.mk p.id (calculateWeight p) p)).foldr
    insertByWeight []

/-- `getModelStats`: total, no initialization requirement
(`numParameters` abstracted to the class count of the live network). -/
def getModelStats (st : State) : Bool × Nat × Nat :=
  (st.isInitialized, st.labelMap.length, st.inputSize)

/-- `classifyPattern`: fails before initialization; the numeric softmax
output is not modelled, so the result only records which label set the
prediction ranges over. -/
def classifyPattern (st : State) (p : PatternFeatures) :
    Except String (String × List String) :=
  if !(ready st) then .error "NotInitialized" else
  .ok (p.id, st.labelMap)

/-- `createFeaturesFromPattern(record, size = 100)`: `Object.values`
traversal keeping numbers, booleans as 0/1 and strings as
`Math.abs(hash) % 1000 / 1000`; other value kinds are skipped; the vector is
truncated or zero-padded to `size`. -/
def createFeaturesFromPattern (data : List (String × JValue)) (size : Nat := 100) :
    List Rat :=
  let flat := data.filterMap (fun kv =>
    match kv.2 with
    | .jnum q => some q
    | .jbool b => some (cond b 1 0)
    | .jstr s => some (((hashString s).natAbs % 1000 : Nat) / (1000 : Rat))
    | _ => none)
  if flat.length ≥ size then flat.take size
  else flat ++ List.replicate (size - flat.length) 0

/-- `normalizeFeatures`: min-max scaling to `[0, 1]`, constant vectors
mapping to all `0.5`. -/
def normalizeFeatures (features : List Rat) : List Rat :=
  match features with
  | [] => []
  | f :: fs =>
    let mx := fs.foldl max f
    let mn := fs.foldl min f
    if mx = mn then features.map (fun _ => (1 / 2 : Rat))
    else features.map (fun v => (v - mn) / (mx - mn))

end LearningModel

namespace MemorySystem

/-- Composite state of a `MemoryStorageSystem`. -/
structure State where
  storage : PatternStorage.State
  kb : KnowledgeBase.State
  model : LearningModel.State

/-- The feature record `MemoryStorageSystem` builds from a stored pattern
(`createFeaturesFromPattern(p.data)` with the pattern type as label). -/
def patternFeaturesOf (p : Pattern) : PatternFeatures :=
  { id := p.id, features := LearningModel.createFeaturesFromPattern p.data,
    label := p.type, confidence := p.metadata.confidence,
    frequency := p.metadata.frequency, timestamp := p.createdAt }

/-- `initialize`: initialize the store and the knowledge base, then bootstrap
the classifier from the existing patterns when there are any. The
`queryPatterns` call runs on the freshly initialized store and cannot fail;
a failure value is totalized to the empty list. -/
def memInit (ms : State) (now : Int) : State :=
  let storage := PatternStorage.initStore ms.storage now
  let kb := KnowledgeBase.initKB ms.kb
  let all := (PatternStorage.queryPatterns storage {} now).toOption.getD []
  let model :=
    if all.length > 0 then LearningModel.initModel ms.model (all.map patternFeaturesOf)
    else ms.model
  ⟨storage, kb, model⟩

/-- The `for (relationship of extraction.relationships)` loop. -/
def addRels (kb : KnowledgeBase.State) :
    List KnowledgeRelationship → Except String KnowledgeBase.State
  | [] => .ok kb
  | rel :: rest => do
    let kb₁ ← KnowledgeBase.addRelationship kb rel
    addRels kb₁ rest

/-- `addPattern`: save, extract, add items and relationships, then try the
incremental classifier update; only a failure of that update (the
`try/catch`) triggers the full rebuild — recompute features for every stored
pattern, dispose, reinitialize and retrain. -/
def addPattern (ms : State) (c : Candidate) (now : Int) :
    Except String State := do
  let savedSt ← PatternStorage.savePattern ms.storage c now
  let saved := savedSt.1
  let storage := savedSt.2
  let ext := KnowledgeBase.extractKnowledge ms.kb saved now
  let kb₁ ← KnowledgeBase.addKnowledgeItems ext.2 ext.1.extractedItems
  let kb₂ ← addRels kb₁ ext.1.relationships
  let features := patternFeaturesOf saved
  match LearningModel.updateModel ms.model [features] true with
  | .ok model => .ok ⟨storage, kb₂, model⟩
  | .error _ => do
    let all ← PatternStorage.queryPatterns storage {} now
    let allFeatures := all.map patternFeaturesOf
    let m₁ := LearningModel.dispose ms.model
    let m₂ := LearningModel.initModel m₁ allFeatures
    let m₃ ← LearningModel.train m₂ allFeatures
    .ok ⟨storage, kb₂, m₃⟩

/-- `shutdown`: dispose the classifier. -/
def shutdown (ms : State) : State :=
  { ms with model := LearningModel.dispose ms.model }

end MemorySystem

/-! ## Specification-side definitions and concrete fixtures -/

/-- The record `savePattern` constructs and stores (its `newPattern`). -/
def savedRecord (st : PatternStorage.State) (c : Candidate) (now : Int) : Pattern :=
  { id := generatePatternId c, type := c.type, data := c.data, metadata := c.metadata,
    createdAt := now, updatedAt := now,
    expiresAt := match c.expiresAt with
      | some e => some e
      | none => some (now + st.defaultExpirationDays * 86400000) }

/-- The pattern id really is deterministic in the candidate, but the hashed
serialization covers the *entire* candidate object. Two candidates agreeing
on `(type, data)` and differing only in `metadata.source`. -/
def candA : Candidate :=
  { type := "t", data := [("k", JValue.jstr "v")], metadata := ⟨1, 1, 0, [], "a"⟩ }

/-- Same `(type, data)` as `candA`, different `metadata.source`. -/
def candB : Candidate :=
  { type := "t", data := [("k", JValue.jstr "v")], metadata := ⟨1, 1, 0, [], "b"⟩ }

/-- Save `c₁` then `c₂` into a fresh initialized store and report the final
record count. -/
def saveTwicePatternCount (c₁ c₂ : Candidate) : Option Nat :=
  let st := PatternStorage.initStore PatternStorage.newState 0
  match PatternStorage.savePattern st c₁ 0 with
  | .ok (_, st₁) =>
    match PatternStorage.savePattern st₁ c₂ 0 with
    | .ok (_, st₂) => some st₂.patterns.length
    | .error _ => none
  | .error _ => none

/-- C5 counterexample: save `candA` at time 100, re-save the identical
candidate at time 200 — the stored record's `createdAt` is 200, not the
first-insertion time 100. -/
def resaveCreatedAt : Option (Int × Int) :=
  let st := PatternStorage.initStore PatternStorage.newState 0
  match PatternStorage.savePattern st candA 100 with
  | .ok (p₁, st₁) =>
    match PatternStorage.savePattern st₁ candA 200 with
    | .ok (_, st₂) =>
      match lookupA p₁.id st₂.patterns with
      | some stored => some (p₁.createdAt, stored.createdAt)
      | none => none
    | .error _ => none
  | .error _ => none

/-- The snapshot record `createVersion` builds. -/
def snapshotOf (p : Pattern) (vs : List PatternVersion) (now : Int) : PatternVersion :=
  { patternId := p.id, version := vs.length + 1, data := p.data,
    metadata := p.metadata, timestamp := now }

/-- A fresh initialized store: `new PatternStorage(...)` followed by
`initialize()` on an empty data directory. -/
def st0 : PatternStorage.State := PatternStorage.initStore PatternStorage.newState 0

/-- Save `candA` into a fresh store, update it `k` times (each update
snapshots the pre-update state), and report the retained version numbers. -/
def updateVersionNumbers (maxVersions? : Option Nat) (k : Nat) : Option (List Nat) :=
  let st := PatternStorage.initStore (PatternStorage.newState maxVersions?) 0
  match PatternStorage.savePattern st candA 0 with
  | .ok (p, st₁) =>
    let step : Option PatternStorage.State → Nat → Option PatternStorage.State :=
      fun acc i =>
        acc.bind (fun s =>
          match PatternStorage.updatePattern s p.id {} (Int.ofNat i) with
          | .ok (some _, s₂) => some s₂
          | _ => none)
    match (List.range k).foldl step (some st₁) with
    | some sFinal =>
      match PatternStorage.getPatternVersions sFinal p.id with
      | .ok vs => some (vs.map (fun v => v.version))
      | .error _ => none
    | none => none
  | .error _ => none

/-- `candA` with the (falsy) explicit expiration timestamp `0`. -/
def candExp0 : Candidate := { candA with expiresAt := some 0 }

/-- Save a candidate with `expiresAt = 0`, then report whether `get` at a
later time still returns it. -/
def getAfterZeroExpiry : Option Bool :=
  match PatternStorage.savePattern st0 candExp0 0 with
  | .ok (p, st₁) =>
    match PatternStorage.getPattern st₁ p.id 10 with
    | .ok (r, _) => some r.isSome
    | .error _ => none
  | .error _ => none

/-- A concrete stored pattern carrying a nonzero past expiration. -/
def pExp : Pattern :=
  { id := "x", type := "t", data := [], metadata := ⟨1, 1, 0, [], "s"⟩,
    createdAt := 0, updatedAt := 0, expiresAt := some 5 }

/-- An initialized store holding only `pExp`. -/
def stExp : PatternStorage.State := { st0 with patterns := [("x", pExp)] }

/-- A fresh initialized knowledge base. -/
def kb0 : KnowledgeBase.State := KnowledgeBase.initKB KnowledgeBase.newState

/-- A relationship between two ids that are not stored as items. -/
def relXY : KnowledgeRelationship :=
  { id := "r1", fromId := "x", toId := "y", type := .associative, strength := 1 }

/-- A concrete stored knowledge item with id `x`. -/
def itemX : KnowledgeItem :=
  { id := "x", patternId := "p", type := .fact, content := "c",
    structuredData := [], metadata := ⟨1, ["s"], 1, [], none⟩,
    createdAt := 0, updatedAt := 0 }

/-- An initialized knowledge base holding `itemX` and a relationship
referencing it. -/
def kbX : KnowledgeBase.State :=
  { kb0 with items := [("x", itemX)], relationships := [("r1", relXY)] }

/-- Undirected adjacency induced by a relationship list (either endpoint
counts as a neighbor of the other). -/
def adjacent (rels : List KnowledgeRelationship) (a b : String) : Prop :=
  ∃ r ∈ rels, (r.fromId = a ∧ r.toId = b) ∨ (r.toId = a ∧ r.fromId = b)

/-- `WithinHops rels n a b`: `b` is reachable from `a` in at most `n`
undirected hops. -/
inductive WithinHops (rels : List KnowledgeRelationship) : Nat → String → String → Prop
  | refl (n a) : WithinHops rels n a a
  | step {n a b c} : adjacent rels a b → WithinHops rels n b c →
      WithinHops rels (n + 1) a c

/-- A second item (id `y`) for graph scenarios. -/
def itemY : KnowledgeItem := { itemX with id := "y" }

/-- A third item (id `z`) for graph scenarios. -/
def itemZ : KnowledgeItem := { itemX with id := "z" }

/-- An associative relationship from `a` to `b` with id `i`. -/
def relOf (i a b : String) : KnowledgeRelationship :=
  { id := i, fromId := a, toId := b, type := .associative, strength := 1 }

/-- The chain graph `x — y — z`. -/
def kbChain : KnowledgeBase.State :=
  { kb0 with items := [("x", itemX), ("y", itemY), ("z", itemZ)],
             relationships := [("rxy", relOf "rxy" "x" "y"),
                               ("ryz", relOf "ryz" "y" "z")] }

/-- The triangle graph `x — y`, `y — z`, `x — z`. -/
def kbTri : KnowledgeBase.State :=
  { kbChain with relationships := [("rxy", relOf "rxy" "x" "y"),
                                   ("ryz", relOf "ryz" "y" "z"),
                                   ("rxz", relOf "rxz" "x" "z")] }

/-- A feature record used to exercise the pure classifier helpers. -/
def featX : PatternFeatures :=
  { id := "p", features := [], label := "t", confidence := 1, frequency := 1,
    timestamp := 0 }

/-- The storage state after a successful `savePattern`. -/
def savedState (st : PatternStorage.State) (c : Candidate) (now : Int) :
    PatternStorage.State :=
  let st₁ := match lookupA (generatePatternId c) st.patterns with
    | some existing => PatternStorage.createVersion st existing now
    | none => st
  { st₁ with patterns := setA (generatePatternId c) (savedRecord st c now) st₁.patterns }

/-- A labeled feature record with label `"a"`, used to fix the classifier
label set. -/
def featSeedA : PatternFeatures :=
  { id := "seed", features := [], label := "a", confidence := 1, frequency := 1,
    timestamp := 0 }

/-- A classifier initialized with the single label `"a"`. -/
def modelA : LearningModel.State := LearningModel.initModel LearningModel.newState [featSeedA]

/-- A candidate whose type (label) `"b"` is not in `modelA`\'s label set. -/
def candB2 : Candidate :=
  { type := "b", data := [("k", JValue.jstr "v")], metadata := ⟨1, 1, 0, [], "s"⟩ }

/-- A memory system whose classifier knows only the label `"a"`. -/
def msB : MemorySystem.State := ⟨st0, kb0, modelA⟩

/-- Run `addPattern` and report the final label map plus the one-hot label
rows of every batch the model was fitted on. -/
def c2Run : Option (List String × List (List (List Rat))) :=
  match MemorySystem.addPattern msB candB2 0 with
  | .ok ms => some (ms.model.labelMap,
      (ms.model.net.map (fun n => n.fitLog.map Prod.snd)).getD [])
  | .error _ => none

/-- A memory system whose classifier was never initialized. -/
def msE : MemorySystem.State := ⟨st0, kb0, LearningModel.newState⟩

/-- Whether the type-driven extraction policy yields an item for this
`(type, data)` — it yields at most one, and exactly one iff this predicate
holds (the default branch always yields one). -/
def extractYields (ty : String) (data : List (String × JValue)) : Bool :=
  if ty = "behavioral" then
    (KnowledgeBase.truthyLookup "trigger" data).isSome &&
      (KnowledgeBase.truthyLookup "action" data).isSome
  else if ty = "temporal" then
    (match lookupA "sequence" data with
      | some (.jarr _) => true
      | _ => false)
  else if ty = "sequential" then
    (match lookupA "steps" data with
      | some (.jarr _) => true
      | _ => false)
  else if ty = "categorical" then
    (KnowledgeBase.truthyLookup "category" data).isSome &&
      (KnowledgeBase.truthyLookup "items" data).isSome
  else true

/-- The knowledge-base state after `addKnowledge` inserts one item below
capacity. -/
def addedKB (kb : KnowledgeBase.State) (it : KnowledgeItem) : KnowledgeBase.State :=
  { kb with items := setA it.id it kb.items,
            patternIndex := KnowledgeBase.updatePatternIndex it kb.patternIndex,
            tagIndex := KnowledgeBase.updateTagIndex it kb.tagIndex }

/-- A fresh memory system with nothing stored and an uninitialized
classifier. -/
def msFresh : MemorySystem.State := ⟨st0, kb0, LearningModel.newState⟩


/-! ## General association-list lemmas -/

theorem lookupA_setA_self {α : Type} (k : String) (v : α) (l : List (String × α)) :
    lookupA k (setA k v l) = some v := by
  induction l with
  | nil => simp [setA, lookupA]
  | cons hd tl ih =>
    by_cases hk : hd.1 = k
    · simp [setA, hk, lookupA]
    · simp [setA, hk, lookupA, ih]

theorem lookupA_setA_ne {α : Type} {k k₂ : String} (v : α) (l : List (String × α))
    (h : k₂ ≠ k) : lookupA k₂ (setA k v l) = lookupA k₂ l := by
  have hk₂ : ¬ k = k₂ := fun he => h he.symm
  induction l with
  | nil => simp [setA, lookupA, hk₂]
  | cons hd tl ih =>
    by_cases hk : hd.1 = k
    · subst hk
      simp [setA, lookupA, hk₂]
    · simp [setA, hk, lookupA, ih]

theorem lookupA_eq_none_of_not_mem {α : Type} {k : String} {l : List (String × α)}
    (h : k ∉ l.map Prod.fst) : lookupA k l = none := by
  induction l with
  | nil => rfl
  | cons hd tl ih =>
    simp only [List.map_cons, List.mem_cons, not_or] at h
    have hne : hd.1 ≠ k := fun he => h.1 he.symm
    simp [lookupA, hne, ih h.2]

theorem length_setA_some {α : Type} {k : String} {w : α} (v : α)
    {l : List (String × α)} (h : lookupA k l = some w) :
    (setA k v l).length = l.length := by
  induction l with
  | nil => simp [lookupA] at h
  | cons hd tl ih =>
    by_cases hk : hd.1 = k
    · simp [setA, hk]
    · simp only [lookupA, if_neg hk] at h
      simp [setA, hk, ih h]

theorem length_setA_none {α : Type} {k : String} (v : α)
    {l : List (String × α)} (h : lookupA k l = none) :
    (setA k v l).length = l.length + 1 := by
  induction l with
  | nil => simp [setA]
  | cons hd tl ih =>
    by_cases hk : hd.1 = k
    · simp [lookupA, hk] at h
    · simp only [lookupA, if_neg hk] at h
      simp [setA, hk, ih h]

theorem lookupA_eraseA_self {α : Type} {k : String} {l : List (String × α)}
    (hnd : (l.map Prod.fst).Nodup) : lookupA k (eraseA k l) = none := by
  induction l with
  | nil => rfl
  | cons hd tl ih =>
    simp only [List.map_cons, List.nodup_cons] at hnd
    by_cases hk : hd.1 = k
    · subst hk
      simp only [eraseA, if_pos rfl]
      exact lookupA_eq_none_of_not_mem hnd.1
    · simp [eraseA, hk, lookupA, ih hnd.2]

theorem length_eraseA_some {α : Type} {k : String} {w : α} {l : List (String × α)}
    (h : lookupA k l = some w) : (eraseA k l).length + 1 = l.length := by
  induction l with
  | nil => simp [lookupA] at h
  | cons hd tl ih =>
    by_cases hk : hd.1 = k
    · simp [eraseA, hk]
    · simp only [lookupA, if_neg hk] at h
      simp [eraseA, hk, ih h]

theorem lookupA_eraseA_ne {α : Type} {k k₂ : String} {l : List (String × α)}
    (h : k₂ ≠ k) : lookupA k₂ (eraseA k l) = lookupA k₂ l := by
  have hk₂ : ¬ k = k₂ := fun he => h he.symm
  induction l with
  | nil => rfl
  | cons hd tl ih =>
    by_cases hk : hd.1 = k
    · subst hk
      simp [eraseA, lookupA, hk₂]
    · simp [eraseA, hk, lookupA, ih]

theorem mem_setA {α : Type} {kv : String × α} {k : String} {v : α}
    {l : List (String × α)} (h : kv ∈ setA k v l) : kv = (k, v) ∨ kv ∈ l := by
  induction l with
  | nil => simpa [setA] using h
  | cons hd tl ih =>
    by_cases hk : hd.1 = k
    · subst hk
      simp only [setA, eq_self_iff_true, if_true, List.mem_cons] at h
      rcases h with h | h
      · exact Or.inl h
      · exact Or.inr (List.mem_cons_of_mem _ h)
    · simp only [setA, if_neg hk, List.mem_cons] at h
      rcases h with h | h
      · exact Or.inr (by simp [h])
      · rcases ih h with h₂ | h₂
        · exact Or.inl h₂
        · exact Or.inr (List.mem_cons_of_mem _ h₂)

theorem lookupA_mem {α : Type} {k : String} {w : α} {l : List (String × α)}
    (h : lookupA k l = some w) : (k, w) ∈ l := by
  induction l with
  | nil => simp [lookupA] at h
  | cons hd tl ih =>
    rcases hd with ⟨k₁, v₁⟩
    by_cases hk : k₁ = k
    · subst hk
      simp only [lookupA, eq_self_iff_true, if_true, Option.some.injEq] at h
      subst h
      exact List.mem_cons_self _ _
    · simp only [lookupA, if_neg hk] at h
      exact List.mem_cons_of_mem _ (ih h)

/-! ## `savePattern` characterization -/

theorem savePattern_spec (st : PatternStorage.State) (c : Candidate) (now : Int)
    (hinit : st.initialized = true) :
    ∃ st₁, PatternStorage.savePattern st c now = .ok (savedRecord st c now, st₁) ∧
      st₁.patterns = setA (generatePatternId c) (savedRecord st c now) st.patterns ∧
      st₁.initialized = true ∧ st₁.maxVersions = st.maxVersions ∧
      st₁.defaultExpirationDays = st.defaultExpirationDays := by
  unfold PatternStorage.savePattern
  simp only [hinit, Bool.not_true, Bool.false_eq_true, if_false]
  cases hl : lookupA (generatePatternId c) st.patterns with
  | none => exact ⟨_, rfl, rfl, hinit, rfl, rfl⟩
  | some p => exact ⟨_, rfl, rfl, hinit, rfl, rfl⟩

/-! ## Claim C1 — the pattern id hashes the whole candidate -/

/-- C1 counterexample: `candA` and `candB` have identical type and identical
data yet `generatePatternId` assigns them different ids (the hash covers
`metadata` too), and saving both creates two records, not one. -/
theorem generatePatternId_not_type_data_only :
    candA.type = candB.type ∧ candA.data = candB.data ∧
    generatePatternId candA ≠ generatePatternId candB ∧
    saveTwicePatternCount candA candB = some 2 :=
  ⟨rfl, rfl, by decide, by decide⟩

/-- C1 (amended): the id is a deterministic function of the whole candidate,
so re-saving the *identical* candidate is an upsert to the same record and
never creates a second one. -/
theorem savePattern_idempotent_id (st : PatternStorage.State) (c : Candidate)
    (now₁ now₂ : Int) (hinit : st.initialized = true) :
    ∃ p₁ st₁ p₂ st₂,
      PatternStorage.savePattern st c now₁ = .ok (p₁, st₁) ∧
      PatternStorage.savePattern st₁ c now₂ = .ok (p₂, st₂) ∧
      p₂.id = p₁.id ∧
      st₂.patterns.length = st₁.patterns.length ∧
      lookupA p₁.id st₂.patterns = some p₂ := by
  obtain ⟨st₁, heq₁, hp₁, hi₁, -, -⟩ := savePattern_spec st c now₁ hinit
  obtain ⟨st₂, heq₂, hp₂, -, -, -⟩ := savePattern_spec st₁ c now₂ hi₁
  refine ⟨_, st₁, _, st₂, heq₁, heq₂, rfl, ?_, ?_⟩
  · rw [hp₂]
    exact length_setA_some _ (by rw [hp₁]; exact lookupA_setA_self ..)
  · rw [hp₂]
    exact lookupA_setA_self ..

/-- C1 witness: the amended theorem applied at `candA` in a fresh store. -/
theorem savePattern_idempotent_id_witness :
    (PatternStorage.initStore PatternStorage.newState 0).initialized = true ∧
    ∃ p₁ st₁ p₂ st₂,
      PatternStorage.savePattern (PatternStorage.initStore PatternStorage.newState 0)
        candA 5 = .ok (p₁, st₁) ∧
      PatternStorage.savePattern st₁ candA 9 = .ok (p₂, st₂) ∧
      p₂.id = p₁.id ∧
      st₂.patterns.length = st₁.patterns.length ∧
      lookupA p₁.id st₂.patterns = some p₂ :=
  ⟨rfl, savePattern_idempotent_id _ candA 5 9 rfl⟩

/-! ## Claim C5 — `createdAt` is overwritten on every save -/

/-- C5 counterexample: the re-save does not leave `createdAt` unchanged. -/
theorem savePattern_resets_createdAt :
    resaveCreatedAt = some (100, 200) ∧ (100 : Int) ≠ 200 :=
  ⟨by decide, by decide⟩

/-- C5 (amended): `savePattern` stamps *both* `createdAt` and `updatedAt`
with the save time on every save, re-saves included, and `expiresAt`
defaults to `now + defaultExpirationDays` (in ms) unless supplied. -/
theorem savePattern_timestamps (st : PatternStorage.State) (c : Candidate)
    (now : Int) (hinit : st.initialized = true) :
    ∃ p st₁,
      PatternStorage.savePattern st c now = .ok (p, st₁) ∧
      p.createdAt = now ∧ p.updatedAt = now ∧
      p.expiresAt = some (c.expiresAt.getD (now + st.defaultExpirationDays * 86400000)) ∧
      lookupA p.id st₁.patterns = some p := by
  obtain ⟨st₁, heq, hp, -, -, -⟩ := savePattern_spec st c now hinit
  refine ⟨_, st₁, heq, rfl, rfl, ?_, ?_⟩
  · cases hce : c.expiresAt with
    | none => simp [savedRecord, hce]
    | some e => simp [savedRecord, hce]
  · rw [hp]
    exact lookupA_setA_self ..

/-- C5 witness: the amended theorem applied at a concrete candidate carrying
an explicit `expiresAt`, plus the default-expiration case via `candA`. -/
theorem savePattern_timestamps_witness :
    (PatternStorage.initStore PatternStorage.newState 0).initialized = true ∧
    ∃ p st₁,
      PatternStorage.savePattern (PatternStorage.initStore PatternStorage.newState 0)
        candA 7 = .ok (p, st₁) ∧
      p.createdAt = 7 ∧ p.updatedAt = 7 ∧
      p.expiresAt = some (candA.expiresAt.getD
        (7 + (PatternStorage.initStore PatternStorage.newState 0).defaultExpirationDays *
          86400000)) ∧
      lookupA p.id st₁.patterns = some p :=
  ⟨rfl, savePattern_timestamps _ candA 7 rfl⟩

/-! ## Claims C3 and C4 — version retention and version numbering -/

/-- The version map after `createVersion`: append the snapshot numbered
`length + 1`, then drop the head when the list exceeds `maxVersions`. -/
theorem createVersion_versions (st : PatternStorage.State) (p : Pattern) (now : Int) :
    (PatternStorage.createVersion st p now).versions =
      setA p.id
        (if ((lookupA p.id st.versions).getD []).length + 1 > st.maxVersions then
          (((lookupA p.id st.versions).getD []) ++
            [snapshotOf p ((lookupA p.id st.versions).getD []) now]).tail
         else
          ((lookupA p.id st.versions).getD []) ++
            [snapshotOf p ((lookupA p.id st.versions).getD []) now])
        st.versions := by
  simp [PatternStorage.createVersion, snapshotOf]

/-- C3: at most `maxVersions` versions are retained (`createVersion`
preserves the global bound), when the cap is hit the head — the oldest
snapshot, since snapshots are appended at the tail — is dropped, and the
concrete scenario: saving a pattern and updating it 11 times with the
default `maxVersions = 10` leaves exactly the 10 versions numbered 2..11
(the oldest, version 1, was evicted). -/
theorem versions_bounded_fifo (st : PatternStorage.State) (p : Pattern) (now : Int)
    (hbound : ∀ kv ∈ st.versions, kv.2.length ≤ st.maxVersions)
    (hpos : 0 < st.maxVersions) :
    (∀ kv ∈ (PatternStorage.createVersion st p now).versions,
      kv.2.length ≤ st.maxVersions) ∧
    (((lookupA p.id st.versions).getD []).length = st.maxVersions →
      (lookupA p.id (PatternStorage.createVersion st p now).versions).getD [] =
        ((lookupA p.id st.versions).getD []).tail ++
          [snapshotOf p ((lookupA p.id st.versions).getD []) now]) ∧
    updateVersionNumbers none 11 = some [2, 3, 4, 5, 6, 7, 8, 9, 10, 11] := by
  have hvslen : ((lookupA p.id st.versions).getD []).length ≤ st.maxVersions := by
    cases hl : lookupA p.id st.versions with
    | none => simp
    | some w => simpa [hl] using hbound _ (lookupA_mem hl)
  refine ⟨?_, ?_, by decide⟩
  · intro kv hkv
    rw [createVersion_versions] at hkv
    rcases mem_setA hkv with h | h
    · rw [h]
      by_cases hlen : ((lookupA p.id st.versions).getD []).length + 1 > st.maxVersions
      · simp only [if_pos hlen, List.length_tail, List.length_append,
          List.length_singleton]
        omega
      · simp only [if_neg hlen, List.length_append, List.length_singleton]
        omega
    · exact hbound _ h
  · intro hlen
    rw [createVersion_versions, lookupA_setA_self,
      if_pos (by omega : ((lookupA p.id st.versions).getD []).length + 1 >
        st.maxVersions)]
    simp only [Option.getD_some]
    cases hvs : (lookupA p.id st.versions).getD [] with
    | nil =>
      exfalso
      rw [hvs] at hlen
      simp at hlen
      omega
    | cons a t => simp [List.cons_append]

/-- C3 witness: the theorem applied at a fresh store and the record
`savePattern` would store for `candA`. -/
theorem versions_bounded_fifo_witness :
    (∀ kv ∈ st0.versions, kv.2.length ≤ st0.maxVersions) ∧ 0 < st0.maxVersions ∧
    ((∀ kv ∈ (PatternStorage.createVersion st0 (savedRecord st0 candA 0) 0).versions,
        kv.2.length ≤ st0.maxVersions) ∧
      (((lookupA (savedRecord st0 candA 0).id st0.versions).getD []).length =
          st0.maxVersions →
        (lookupA (savedRecord st0 candA 0).id
            (PatternStorage.createVersion st0 (savedRecord st0 candA 0) 0).versions).getD
            [] =
          ((lookupA (savedRecord st0 candA 0).id st0.versions).getD []).tail ++
            [snapshotOf (savedRecord st0 candA 0)
              ((lookupA (savedRecord st0 candA 0).id st0.versions).getD []) 0]) ∧
      updateVersionNumbers none 11 = some [2, 3, 4, 5, 6, 7, 8, 9, 10, 11]) :=
  ⟨by decide, by decide,
    versions_bounded_fifo st0 (savedRecord st0 candA 0) 0 (by decide) (by decide)⟩

/-- C4 counterexample: with `maxVersions = 2`, saving once and updating four
times leaves two retained versions that *both* carry version number 3 —
version numbers are computed as `length + 1`, which stops increasing once the
FIFO cap trims the list, so they are neither monotonically increasing nor
unique among retained versions. -/
theorem version_numbers_not_monotone :
    updateVersionNumbers (some 2) 4 = some [3, 3] ∧
    ¬ ([3, 3] : List Nat).Nodup :=
  ⟨by decide, by decide⟩

/-- C4 (amended): `createVersion` numbers each snapshot `(retained count) + 1`
— appended at the tail — so numbers increase only while the pattern is below
the `maxVersions` cap and never exceed `maxVersions + 1`; once eviction
begins every new snapshot receives `maxVersions + 1` again, so retained
versions can share a number. -/
theorem createVersion_number (st : PatternStorage.State) (p : Pattern) (now : Int)
    (hpos : 0 < st.maxVersions)
    (hbound : ((lookupA p.id st.versions).getD []).length ≤ st.maxVersions)
    (hnum : ∀ v ∈ (lookupA p.id st.versions).getD [], v.version ≤ st.maxVersions + 1) :
    ((lookupA p.id (PatternStorage.createVersion st p now).versions).getD
        []).getLast? =
      some (snapshotOf p ((lookupA p.id st.versions).getD []) now) ∧
    ∀ v ∈ (lookupA p.id (PatternStorage.createVersion st p now).versions).getD [],
      v.version ≤ st.maxVersions + 1 := by
  rw [createVersion_versions, lookupA_setA_self]
  simp only [Option.getD_some]
  by_cases hlen : ((lookupA p.id st.versions).getD []).length + 1 > st.maxVersions
  · rw [if_pos hlen]
    cases hvs : (lookupA p.id st.versions).getD [] with
    | nil =>
      exfalso
      rw [hvs] at hlen
      simp at hlen
      omega
    | cons a t =>
      rw [hvs] at hnum hbound
      constructor
      · simp [List.cons_append, List.getLast?_concat]
      · intro v hv
        simp only [List.cons_append, List.tail_cons] at hv
        rcases List.mem_append.mp hv with h | h
        · exact hnum v (List.mem_cons_of_mem _ h)
        · simp only [List.mem_singleton] at h
          rw [h]
          simp only [snapshotOf, List.length_cons]
          simp only [List.length_cons] at hbound
          omega
  · rw [if_neg hlen]
    constructor
    · simp [List.getLast?_concat]
    · intro v hv
      rcases List.mem_append.mp hv with h | h
      · exact hnum v h
      · simp only [List.mem_singleton] at h
        rw [h]
        simp only [snapshotOf]
        omega

/-! ## Claim C6 — lazy expiration on read -/

/-- C6 counterexample: a stored pattern with `expiresAt = 0` is in the past
at `now = 10`, yet `get` returns the record instead of `null` — the guard
`pattern.expiresAt && now > pattern.expiresAt` treats the falsy timestamp `0`
as "no expiration". -/
theorem getPattern_zero_expiry_not_deleted :
    getAfterZeroExpiry = some true ∧ (0 : Int) < 10 :=
  ⟨by decide, by decide⟩

/-- C6 (amended): for a stored pattern whose `expiresAt` is *nonzero* and in
the past, `get` returns `null` and deletes the pattern together with its
version history as a side effect, so it is gone from subsequent `getStats`
counts; `get` on an absent id returns `null` with no state change. -/
theorem getPattern_expired_deletes (st : PatternStorage.State) (id : String)
    (now : Int) (p : Pattern) (e : Int)
    (hinit : st.initialized = true)
    (hndp : (st.patterns.map Prod.fst).Nodup)
    (hndv : (st.versions.map Prod.fst).Nodup)
    (hl : lookupA id st.patterns = some p)
    (he : p.expiresAt = some e) (henz : e ≠ 0) (hpast : now > e) :
    PatternStorage.getPattern st id now =
      .ok (none, PatternStorage.deleteCore st id) ∧
    lookupA id (PatternStorage.deleteCore st id).patterns = none ∧
    lookupA id (PatternStorage.deleteCore st id).versions = none ∧
    (PatternStorage.getStats (PatternStorage.deleteCore st id)).totalPatterns + 1 =
      (PatternStorage.getStats st).totalPatterns ∧
    (∀ st₂ id₂ now₂, (st₂ : PatternStorage.State).initialized = true →
      lookupA id₂ st₂.patterns = none →
      PatternStorage.getPattern st₂ id₂ now₂ = .ok (none, st₂)) := by
  have hexp : PatternStorage.truthyExpired p.expiresAt now = true := by
    rw [he]
    simp [PatternStorage.truthyExpired, henz, hpast]
  refine ⟨?_, ?_, ?_, ?_, ?_⟩
  · simp [PatternStorage.getPattern, hinit, hl, hexp]
  · exact lookupA_eraseA_self hndp
  · exact lookupA_eraseA_self hndv
  · exact length_eraseA_some hl
  · intro st₂ id₂ now₂ hinit₂ hl₂
    simp [PatternStorage.getPattern, hinit₂, hl₂]

/-- C6 witness: the amended theorem applied at `stExp` with `now = 10`. -/
theorem getPattern_expired_deletes_witness :
    stExp.initialized = true ∧ lookupA "x" stExp.patterns = some pExp ∧
    pExp.expiresAt = some 5 ∧ (5 : Int) ≠ 0 ∧ (10 : Int) > 5 ∧
    (PatternStorage.getPattern stExp "x" 10 =
      .ok (none, PatternStorage.deleteCore stExp "x") ∧
    lookupA "x" (PatternStorage.deleteCore stExp "x").patterns = none ∧
    lookupA "x" (PatternStorage.deleteCore stExp "x").versions = none ∧
    (PatternStorage.getStats (PatternStorage.deleteCore stExp "x")).totalPatterns + 1 =
      (PatternStorage.getStats stExp).totalPatterns ∧
    (∀ st₂ id₂ now₂, (st₂ : PatternStorage.State).initialized = true →
      lookupA id₂ st₂.patterns = none →
      PatternStorage.getPattern st₂ id₂ now₂ = .ok (none, st₂))) :=
  ⟨rfl, rfl, rfl, by decide, by decide,
    getPattern_expired_deletes stExp "x" 10 pExp 5 rfl (by decide) (by decide)
      rfl rfl (by decide) (by decide)⟩

/-! ## Claim C7 — relationship endpoints and cascade deletion -/

/-- C7 counterexample: `addRelationship` stores a relationship whose
endpoints do not exist — the source performs no existence check, so
referential integrity is *not* required at creation time. -/
theorem addRelationship_no_endpoint_check :
    KnowledgeBase.addRelationship kb0 relXY =
      .ok { kb0 with relationships := [("r1", relXY)] } ∧
    lookupA "x" kb0.items = none ∧ lookupA "y" kb0.items = none :=
  ⟨rfl, rfl, rfl⟩

/-- C7 (amended): `addRelationship` performs no endpoint-existence check;
referential integrity is enforced only on removal — after
`removeKnowledge(id)` succeeds, no stored relationship references the
removed id as `fromId` or `toId`. -/
theorem removeKnowledge_cascades (kb : KnowledgeBase.State) (id : String)
    (hinit : kb.initialized = true) (hmem : (lookupA id kb.items).isSome = true) :
    ∃ kb₂, KnowledgeBase.removeKnowledge kb id = .ok (true, kb₂) ∧
      ∀ kv ∈ kb₂.relationships, kv.2.fromId ≠ id ∧ kv.2.toId ≠ id := by
  cases hl : lookupA id kb.items with
  | none => rw [hl] at hmem; simp at hmem
  | some item =>
    refine ⟨KnowledgeBase.removeCore kb id, ?_, ?_⟩
    · simp [KnowledgeBase.removeKnowledge, hinit, hl]
    intro kv hkv
    simp only [KnowledgeBase.removeCore, hl] at hkv
    have := (List.mem_filter.mp hkv).2
    simp only [Bool.not_eq_true', Bool.or_eq_false_iff, decide_eq_false_iff_not]
      at this
    exact this

/-- C7 witness: removing `x` from `kbX` cascades away the relationship
`r1 : x → y`. -/
theorem removeKnowledge_cascades_witness :
    kbX.initialized = true ∧ (lookupA "x" kbX.items).isSome = true ∧
    ∃ kb₂, KnowledgeBase.removeKnowledge kbX "x" = .ok (true, kb₂) ∧
      ∀ kv ∈ kb₂.relationships, kv.2.fromId ≠ "x" ∧ kv.2.toId ≠ "x" :=
  ⟨rfl, rfl, removeKnowledge_cascades kbX "x" rfl rfl⟩

/-! ## Claim C8 — `findRelatedItems` traversal bounds -/

theorem WithinHops.mono {rels : List KnowledgeRelationship} {n : Nat}
    {a b : String} (h : WithinHops rels n a b) :
    ∀ m, n ≤ m → WithinHops rels m a b := by
  induction h with
  | refl n a => exact fun m _ => .refl m a
  | step hadj _ ih =>
    intro m hm
    cases m with
    | zero => omega
    | succ m₂ => exact .step hadj (ih m₂ (by omega))

theorem WithinHops.snoc {rels : List KnowledgeRelationship} {n : Nat}
    {a b c : String} (h : WithinHops rels n a b) (hadj : adjacent rels b c) :
    WithinHops rels (n + 1) a c := by
  induction h with
  | refl n a => exact .step hadj (.refl n c)
  | step hadj₂ _ ih => exact .step hadj₂ (ih hadj)

theorem contains_true_iff (l : List String) (a : String) :
    l.contains a = true ↔ a ∈ l := by
  simp

/-- The visited set only grows through the traversal. -/
theorem traverse_visited_mono (rels : List KnowledgeRelationship)
    (items : List (String × KnowledgeItem)) :
    ∀ fuel id ts v, v ∈ ts.visited →
      v ∈ (KnowledgeBase.traverse rels items fuel id ts).visited := by
  intro fuel
  induction fuel with
  | zero => intro id ts v hv; exact hv
  | succ f ih =>
    intro id ts v hv
    rw [KnowledgeBase.traverse]
    by_cases hc : id ∈ ts.visited
    · simpa [hc] using hv
    · simp only [(by simpa using hc : ts.visited.contains id = false),
        Bool.false_eq_true, if_false]
      have hstep : ∀ (l : List KnowledgeRelationship) (ts₂ : KnowledgeBase.TravState),
          v ∈ ts₂.visited →
          v ∈ (l.foldl
            (fun ts r =>
              KnowledgeBase.travStep items (KnowledgeBase.traverse rels items f) id ts r)
            ts₂).visited := by
        intro l
        induction l with
        | nil => intro ts₂ hv₂; exact hv₂
        | cons r rest ihl =>
          intro ts₂ hv₂
          simp only [List.foldl_cons]
          refine ihl _ ?_
          simp only [KnowledgeBase.travStep]
          split
          · split
            · exact hv₂
            · split
              · exact ih _ _ _ hv₂
              · exact hv₂
          · exact hv₂
      exact hstep rels _ (by simp [hv])

/-- The per-item guarantee of the traversal: every pushed item is distinct
from the start node and reachable within `D` undirected hops of it, where
`D` is the initial fuel (`maxDepth + 1`). -/
theorem traverse_result_bounded (rels : List KnowledgeRelationship)
    (items : List (String × KnowledgeItem)) (x : String) (D : Nat)
    (hWF : ∀ kv ∈ items, kv.2.id = kv.1) :
    ∀ fuel, fuel ≤ D → ∀ id ts,
      WithinHops rels (D - fuel) x id →
      (x ∈ ts.visited ∨ id = x) →
      (∀ it ∈ ts.result, it.id ≠ x ∧ WithinHops rels D x it.id) →
      ∀ it ∈ (KnowledgeBase.traverse rels items fuel id ts).result,
        it.id ≠ x ∧ WithinHops rels D x it.id := by
  intro fuel
  induction fuel with
  | zero => intro _ id ts _ _ hres; exact hres
  | succ f ih =>
    intro hfD id ts hid hpre hres
    rw [KnowledgeBase.traverse]
    by_cases hc : id ∈ ts.visited
    · simpa [hc] using hres
    · simp only [(by simpa using hc : ts.visited.contains id = false),
        Bool.false_eq_true, if_false]
      have hxv : x ∈ ts.visited ++ [id] := by
        rcases hpre with h | h
        · exact List.mem_append_left _ h
        · simp [h]
      have hfold : ∀ (l : List KnowledgeRelationship), (∀ r ∈ l, r ∈ rels) →
          ∀ (ts₂ : KnowledgeBase.TravState), x ∈ ts₂.visited →
          (∀ it ∈ ts₂.result, it.id ≠ x ∧ WithinHops rels D x it.id) →
          ∀ it ∈ (l.foldl
            (fun ts r =>
              KnowledgeBase.travStep items (KnowledgeBase.traverse rels items f) id ts r)
            ts₂).result,
            it.id ≠ x ∧ WithinHops rels D x it.id := by
        intro l
        induction l with
        | nil => intro _ ts₂ _ hres₂; exact hres₂
        | cons r rest ihl =>
          intro hsub ts₂ hxv₂ hres₂
          simp only [List.foldl_cons]
          have hrin : r ∈ rels := hsub r (List.mem_cons_self _ _)
          have hsub₂ : ∀ r₂ ∈ rest, r₂ ∈ rels :=
            fun r₂ h₂ => hsub r₂ (List.mem_cons_of_mem _ h₂)
          have hstep : x ∈ (KnowledgeBase.travStep items
              (KnowledgeBase.traverse rels items f) id ts₂ r).visited ∧
              ∀ it ∈ (KnowledgeBase.travStep items
                (KnowledgeBase.traverse rels items f) id ts₂ r).result,
                it.id ≠ x ∧ WithinHops rels D x it.id := by
            simp only [KnowledgeBase.travStep]
            split
            case h_2 => exact ⟨hxv₂, hres₂⟩
            case h_1 nid heq =>
              have hdir : (r.fromId = id ∧ r.toId = nid) ∨
                  (r.toId = id ∧ r.fromId = nid) := by
                by_cases h₁ : r.fromId = id
                · rw [if_pos h₁] at heq
                  cases heq
                  exact Or.inl ⟨h₁, rfl⟩
                · rw [if_neg h₁] at heq
                  by_cases h₂ : r.toId = id
                  · rw [if_pos h₂] at heq
                    cases heq
                    exact Or.inr ⟨h₂, rfl⟩
                  · rw [if_neg h₂] at heq
                    cases heq
              split
              · exact ⟨hxv₂, hres₂⟩
              case isFalse hcn =>
                split
                case h_2 => exact ⟨hxv₂, hres₂⟩
                case h_1 neighbor hlk =>
                  have hnidx : nid ≠ x := by
                    intro he
                    subst he
                    exact hcn (by simpa using hxv₂)
                  have hnbid : neighbor.id = nid := hWF _ (lookupA_mem hlk)
                  have hadj : adjacent rels id nid := ⟨r, hrin, hdir⟩
                  have hhops : WithinHops rels (D - f) x nid := by
                    have h₃ := WithinHops.snoc hid hadj
                    have harith : D - (f + 1) + 1 = D - f := by omega
                    rwa [harith] at h₃
                  have hres₃ : ∀ it ∈ ts₂.result ++ [neighbor],
                      it.id ≠ x ∧ WithinHops rels D x it.id := by
                    intro it hit
                    rcases List.mem_append.mp hit with h | h
                    · exact hres₂ it h
                    · simp only [List.mem_singleton] at h
                      subst h
                      rw [hnbid]
                      exact ⟨hnidx, hhops.mono D (by omega)⟩
                  refine ⟨?_, ?_⟩
                  · exact traverse_visited_mono rels items f nid _ x hxv₂
                  · exact ih (by omega) nid _ hhops (Or.inl hxv₂) hres₃
          exact ihl hsub₂ _ hstep.1 hstep.2
      exact hfold rels (fun r h => h) _ hxv hres

/-- C8 (amended): `findRelated` treats the relationship graph as undirected
and never returns the start item `x` itself, and every returned item is
reachable within `maxDepth + 1` undirected hops of `x` — but (see the
counterexample) items at exactly `maxDepth + 1` hops can be returned, and a
returned item can occur more than once. Requires only that the item map is
keyed by item id, which `addKnowledge` guarantees. -/
theorem findRelatedItems_bounded (kb : KnowledgeBase.State) (x : String)
    (maxDepth : Nat) (hinit : kb.initialized = true)
    (hWF : ∀ kv ∈ kb.items, kv.2.id = kv.1) :
    ∃ res, KnowledgeBase.findRelatedItems kb x maxDepth = .ok res ∧
      ∀ it ∈ res, it.id ≠ x ∧
        WithinHops (kb.relationships.map Prod.snd) (maxDepth + 1) x it.id := by
  refine ⟨(KnowledgeBase.traverse (kb.relationships.map Prod.snd) kb.items
      (maxDepth + 1) x ⟨[], []⟩).result, ?_, ?_⟩
  · simp [KnowledgeBase.findRelatedItems, hinit]
  · exact traverse_result_bounded (kb.relationships.map Prod.snd) kb.items x
      (maxDepth + 1) hWF (maxDepth + 1) (le_refl _) x ⟨[], []⟩
      (by simpa using WithinHops.refl 0 x) (Or.inr rfl) (by simp)

/-- C8 counterexample: in the chain `x — y — z` with `maxDepth = 1`,
`findRelated(x)` returns `z`, which is 2 hops away (no relationship joins
`x` and `z` directly) — the depth cutoff pushes a neighbor before checking
its depth; and in the triangle with `maxDepth = 1` the result contains `z`
twice — a node pushed at the cutoff is never marked visited, so another path
pushes it again. `x` itself is indeed never returned. -/
theorem findRelatedItems_exceeds_depth :
    ((KnowledgeBase.findRelatedItems kbChain "x" 1).toOption.getD []).map
      (fun it => it.id) = ["y", "z"] ∧
    (∀ kv ∈ kbChain.relationships,
      ¬(kv.2.fromId = "x" ∧ kv.2.toId = "z") ∧
      ¬(kv.2.toId = "x" ∧ kv.2.fromId = "z")) ∧
    ((KnowledgeBase.findRelatedItems kbTri "x" 1).toOption.getD []).map
      (fun it => it.id) = ["y", "z", "z"] ∧
    ¬ (["y", "z", "z"] : List String).Nodup :=
  ⟨by decide, by decide, by decide, by decide⟩

/-- C8 witness: the amended bound applied to the chain graph at
`maxDepth = 1`. -/
theorem findRelatedItems_bounded_witness :
    kbChain.initialized = true ∧ (∀ kv ∈ kbChain.items, kv.2.id = kv.1) ∧
    ∃ res, KnowledgeBase.findRelatedItems kbChain "x" 1 = .ok res ∧
      ∀ it ∈ res, it.id ≠ "x" ∧
        WithinHops (kbChain.relationships.map Prod.snd) 2 "x" it.id :=
  ⟨rfl, by decide, findRelatedItems_bounded kbChain "x" 1 rfl (by decide)⟩

/-! ## Claim C9 — which operations check initialization -/

/-- C9 counterexample: on *uninitialized* components, `PatternStorage.getStats`,
`KnowledgeBase.extractKnowledge`, `KnowledgeBase.getStats` and
`LearningModel.applyWeights` all return ordinary results — none of these
methods calls `ensureInitialized` (none of them can even fail), refuting
"every public operation invoked before initialize fails with NotInitialized",
which names exactly these operations as included. -/
theorem uninitialized_reads_succeed :
    PatternStorage.newState.initialized = false ∧
    PatternStorage.getStats PatternStorage.newState =
      { totalPatterns := 0, totalVersions := 0, byType := [] } ∧
    KnowledgeBase.newState.initialized = false ∧
    (KnowledgeBase.extractKnowledge KnowledgeBase.newState pExp
      0).1.extractedItems.length = 1 ∧
    (KnowledgeBase.getStats KnowledgeBase.newState).totalItems = 0 ∧
    (LearningModel.newState).isInitialized = false ∧
    (LearningModel.applyWeights [featX]).length = 1 :=
  ⟨rfl, rfl, rfl, rfl, rfl, rfl, rfl⟩

/-- C9 (amended): every operation that is guarded by `ensureInitialized`
fails with `NotInitialized` before its component's initialize — for
`PatternStorage`: save, get, update, delete, query, getVersions, restore;
for `KnowledgeBase`: addKnowledge, addKnowledgeItems, addRelationship,
getKnowledge, getRelationship, queryKnowledge, findRelatedItems,
removeKnowledge, updateKnowledge; for `LearningModel`: classify, train,
update. The read-only `getStats` methods of both stores, the pure
`extractKnowledge` and `applyWeights` perform no such check. -/
theorem uninitialized_ops_fail (sst : PatternStorage.State)
    (kst : KnowledgeBase.State) (mst : LearningModel.State)
    (c : Candidate) (id : String) (now : Int) (u : PatternStorage.PatternUpdate)
    (q : PatternStorage.PatternQuery) (vnum : Nat)
    (item : KnowledgeItem) (items : List KnowledgeItem)
    (rel : KnowledgeRelationship) (kq : KnowledgeBase.KnowledgeQuery)
    (ku : KnowledgeBase.KnowledgeUpdate) (maxDepth : Nat)
    (fs : List PatternFeatures) (f : PatternFeatures)
    (hs : sst.initialized = false) (hk : kst.initialized = false)
    (hm : mst.isInitialized = false) :
    PatternStorage.savePattern sst c now = .error "NotInitialized" ∧
    PatternStorage.getPattern sst id now = .error "NotInitialized" ∧
    PatternStorage.updatePattern sst id u now = .error "NotInitialized" ∧
    PatternStorage.deletePattern sst id = .error "NotInitialized" ∧
    PatternStorage.queryPatterns sst q now = .error "NotInitialized" ∧
    PatternStorage.getPatternVersions sst id = .error "NotInitialized" ∧
    PatternStorage.restorePattern sst id vnum now = .error "NotInitialized" ∧
    KnowledgeBase.addKnowledge kst item = .error "NotInitialized" ∧
    KnowledgeBase.addKnowledgeItems kst items = .error "NotInitialized" ∧
    KnowledgeBase.addRelationship kst rel = .error "NotInitialized" ∧
    KnowledgeBase.getKnowledge kst id = .error "NotInitialized" ∧
    KnowledgeBase.getRelationship kst id = .error "NotInitialized" ∧
    KnowledgeBase.queryKnowledge kst kq = .error "NotInitialized" ∧
    KnowledgeBase.findRelatedItems kst id maxDepth = .error "NotInitialized" ∧
    KnowledgeBase.removeKnowledge kst id = .error "NotInitialized" ∧
    KnowledgeBase.updateKnowledge kst id ku now = .error "NotInitialized" ∧
    LearningModel.classifyPattern mst f = .error "NotInitialized" ∧
    LearningModel.train mst fs = .error "NotInitialized" ∧
    LearningModel.updateModel mst fs true = .error "NotInitialized" := by
  have hr : LearningModel.ready mst = false := by
    simp [LearningModel.ready, hm]
  cases items with
  | nil =>
    refine ⟨?_, ?_, ?_, ?_, ?_, ?_, ?_, ?_, ?_, ?_, ?_, ?_, ?_, ?_, ?_, ?_, ?_,
      ?_, ?_⟩ <;>
      simp [PatternStorage.savePattern, PatternStorage.getPattern,
        PatternStorage.updatePattern, PatternStorage.deletePattern,
        PatternStorage.queryPatterns, PatternStorage.getPatternVersions,
        PatternStorage.restorePattern, KnowledgeBase.addKnowledge,
        KnowledgeBase.addKnowledgeItems, KnowledgeBase.addRelationship,
        KnowledgeBase.getKnowledge, KnowledgeBase.getRelationship,
        KnowledgeBase.queryKnowledge, KnowledgeBase.findRelatedItems,
        KnowledgeBase.removeKnowledge, KnowledgeBase.updateKnowledge,
        LearningModel.classifyPattern, LearningModel.train,
        LearningModel.updateModel, Bind.bind, Except.bind, hs, hk, hm, hr]
  | cons i rest =>
    refine ⟨?_, ?_, ?_, ?_, ?_, ?_, ?_, ?_, ?_, ?_, ?_, ?_, ?_, ?_, ?_, ?_, ?_,
      ?_, ?_⟩ <;>
      simp [PatternStorage.savePattern, PatternStorage.getPattern,
        PatternStorage.updatePattern, PatternStorage.deletePattern,
        PatternStorage.queryPatterns, PatternStorage.getPatternVersions,
        PatternStorage.restorePattern, KnowledgeBase.addKnowledge,
        KnowledgeBase.addKnowledgeItems, KnowledgeBase.addRelationship,
        KnowledgeBase.getKnowledge, KnowledgeBase.getRelationship,
        KnowledgeBase.queryKnowledge, KnowledgeBase.findRelatedItems,
        KnowledgeBase.removeKnowledge, KnowledgeBase.updateKnowledge,
        LearningModel.classifyPattern, LearningModel.train,
        LearningModel.updateModel, Bind.bind, Except.bind, hs, hk, hm, hr]

/-- C9 witness: the amended theorem applied to freshly constructed
(uninitialized) components with concrete arguments. -/
theorem uninitialized_ops_fail_witness :
    PatternStorage.newState.initialized = false ∧
    KnowledgeBase.newState.initialized = false ∧
    (LearningModel.newState).isInitialized = false ∧
    PatternStorage.savePattern PatternStorage.newState candA 0 =
      .error "NotInitialized" ∧
    KnowledgeBase.addRelationship KnowledgeBase.newState relXY =
      .error "NotInitialized" ∧
    LearningModel.updateModel (LearningModel.newState) [featX] true =
      .error "NotInitialized" :=
  ⟨rfl, rfl, rfl,
    (uninitialized_ops_fail PatternStorage.newState KnowledgeBase.newState
      (LearningModel.newState) candA "x" 0 {} {} 1 itemX [] relXY {} {} 2 [featX]
      featX rfl rfl rfl).1,
    (uninitialized_ops_fail PatternStorage.newState KnowledgeBase.newState
      (LearningModel.newState) candA "x" 0 {} {} 1 itemX [] relXY {} {} 2 [featX]
      featX rfl rfl rfl).2.2.2.2.2.2.2.2.2.1,
    (uninitialized_ops_fail PatternStorage.newState KnowledgeBase.newState
      (LearningModel.newState) candA "x" 0 {} {} 1 itemX [] relXY {} {} 2 [featX]
      featX rfl rfl rfl).2.2.2.2.2.2.2.2.2.2.2.2.2.2.2.2.2.2⟩

/-- C4 witness: the amended numbering theorem applied at a fresh store. -/
theorem createVersion_number_witness :
    0 < st0.maxVersions ∧
    (((lookupA (savedRecord st0 candA 0).id st0.versions).getD []).length ≤
      st0.maxVersions) ∧
    (((lookupA (savedRecord st0 candA 0).id
        (PatternStorage.createVersion st0 (savedRecord st0 candA 0) 0).versions).getD
          []).getLast? =
      some (snapshotOf (savedRecord st0 candA 0)
        ((lookupA (savedRecord st0 candA 0).id st0.versions).getD []) 0) ∧
      ∀ v ∈ (lookupA (savedRecord st0 candA 0).id
          (PatternStorage.createVersion st0 (savedRecord st0 candA 0) 0).versions).getD
          [],
        v.version ≤ st0.maxVersions + 1) :=
  ⟨by decide, by decide,
    createVersion_number st0 (savedRecord st0 candA 0) 0 (by decide) (by decide)
      (by decide)⟩

/-! ## `addPattern` run decomposition (shared by C2 and C10) -/

theorem savePattern_eq (st : PatternStorage.State) (c : Candidate) (now : Int)
    (hinit : st.initialized = true) :
    PatternStorage.savePattern st c now = .ok (savedRecord st c now, savedState st c now) := by
  unfold PatternStorage.savePattern savedState
  simp only [hinit, Bool.not_true, Bool.false_eq_true, if_false]
  cases hl : lookupA (generatePatternId c) st.patterns <;> rfl

theorem savedState_patterns (st : PatternStorage.State) (c : Candidate) (now : Int) :
    (savedState st c now).patterns =
      setA (generatePatternId c) (savedRecord st c now) st.patterns := by
  unfold savedState
  cases hl : lookupA (generatePatternId c) st.patterns <;> rfl

theorem savedState_initialized (st : PatternStorage.State) (c : Candidate) (now : Int) :
    (savedState st c now).initialized = st.initialized := by
  unfold savedState
  cases hl : lookupA (generatePatternId c) st.patterns <;> rfl

theorem removeCore_initialized (kb : KnowledgeBase.State) (id : String) :
    (KnowledgeBase.removeCore kb id).initialized = kb.initialized := by
  unfold KnowledgeBase.removeCore
  cases lookupA id kb.items <;> rfl

theorem removeCore_maxItems (kb : KnowledgeBase.State) (id : String) :
    (KnowledgeBase.removeCore kb id).maxItems = kb.maxItems := by
  unfold KnowledgeBase.removeCore
  cases lookupA id kb.items <;> rfl

theorem foldl_removeCore_initialized (l : List (String × KnowledgeItem)) :
    ∀ kb : KnowledgeBase.State,
      (l.foldl (fun st e => KnowledgeBase.removeCore st e.1) kb).initialized =
        kb.initialized := by
  induction l with
  | nil => intro kb; rfl
  | cons e rest ih =>
    intro kb
    rw [List.foldl_cons, ih, removeCore_initialized]

theorem pruneOldItems_initialized (kb : KnowledgeBase.State) (count : Nat) :
    (KnowledgeBase.pruneOldItems kb count).initialized = kb.initialized := by
  unfold KnowledgeBase.pruneOldItems
  rw [foldl_removeCore_initialized]

theorem addKnowledge_ok (kb : KnowledgeBase.State) (item : KnowledgeItem)
    (h : kb.initialized = true) :
    ∃ kb₂, KnowledgeBase.addKnowledge kb item = .ok kb₂ ∧ kb₂.initialized = true := by
  unfold KnowledgeBase.addKnowledge
  simp only [h, Bool.not_true, Bool.false_eq_true, if_false]
  refine ⟨_, rfl, ?_⟩
  show (if kb.items.length ≥ kb.maxItems then KnowledgeBase.pruneOldItems kb 1
    else kb).initialized = true
  split
  · rw [pruneOldItems_initialized, h]
  · exact h

theorem addKnowledgeItems_ok (items : List KnowledgeItem) :
    ∀ kb : KnowledgeBase.State, kb.initialized = true →
      ∃ kb₂, KnowledgeBase.addKnowledgeItems kb items = .ok kb₂ ∧
        kb₂.initialized = true := by
  induction items with
  | nil =>
    intro kb h
    exact ⟨kb, by simp [KnowledgeBase.addKnowledgeItems, h], h⟩
  | cons item rest ih =>
    intro kb h
    obtain ⟨kb₁, heq₁, hi₁⟩ := addKnowledge_ok kb item h
    obtain ⟨kb₂, heq₂, hi₂⟩ := ih kb₁ hi₁
    refine ⟨kb₂, ?_, hi₂⟩
    simp [KnowledgeBase.addKnowledgeItems, h, heq₁, heq₂, Bind.bind, Except.bind]

theorem addRelationship_ok (kb : KnowledgeBase.State) (rel : KnowledgeRelationship)
    (h : kb.initialized = true) :
    KnowledgeBase.addRelationship kb rel =
      .ok { kb with relationships := setA rel.id rel kb.relationships } := by
  simp [KnowledgeBase.addRelationship, h]

theorem addRels_ok (rels : List KnowledgeRelationship) :
    ∀ kb : KnowledgeBase.State, kb.initialized = true →
      ∃ kb₂, MemorySystem.addRels kb rels = .ok kb₂ ∧ kb₂.initialized = true := by
  induction rels with
  | nil => intro kb h; exact ⟨kb, rfl, h⟩
  | cons rel rest ih =>
    intro kb h
    obtain ⟨kb₂, heq₂, hi₂⟩ :=
      ih { kb with relationships := setA rel.id rel kb.relationships } h
    refine ⟨kb₂, ?_, hi₂⟩
    simp [MemorySystem.addRels, addRelationship_ok kb rel h, heq₂, Bind.bind,
      Except.bind]

theorem matchesQuery_default (p : Pattern) (now : Int) :
    PatternStorage.matchesQuery {} p now = true := rfl

theorem queryPatterns_all (st : PatternStorage.State) (now : Int)
    (h : st.initialized = true) :
    PatternStorage.queryPatterns st {} now = .ok (st.patterns.map Prod.snd) := by
  simp only [PatternStorage.queryPatterns, h, Bool.not_true, Bool.false_eq_true,
    if_false]
  congr 1
  exact List.filter_eq_self.mpr (fun p _ => matchesQuery_default p now)

theorem updateModel_not_ready (st : LearningModel.State)
    (ps : List PatternFeatures) (inc : Bool)
    (h : LearningModel.ready st = false) :
    LearningModel.updateModel st ps inc = .error "NotInitialized" := by
  simp [LearningModel.updateModel, h]

theorem updateModel_ready (st : LearningModel.State) (ps : List PatternFeatures)
    (net : LearningModel.Net) (hi : st.isInitialized = true)
    (hn : st.net = some net) :
    LearningModel.updateModel st ps true =
      .ok { st with net := some { net with
        fitLog := net.fitLog ++ [LearningModel.prepareTrainingData st ps] } } := by
  simp [LearningModel.updateModel, LearningModel.ready, hi, hn]

theorem train_ok (st : LearningModel.State) (ps : List PatternFeatures)
    (net : LearningModel.Net) (hi : st.isInitialized = true)
    (hn : st.net = some net) :
    LearningModel.train st ps =
      .ok { st with net := some { net with
        fitLog := net.fitLog ++ [LearningModel.prepareTrainingData st ps] } } := by
  simp [LearningModel.train, LearningModel.ready, hi, hn]

theorem initModel_fresh (st : LearningModel.State) (fs : List PatternFeatures)
    (h : st.isInitialized = false) :
    LearningModel.initModel st fs =
      { st with
        inputSize := match fs with
          | [] => st.inputSize
          | f :: _ => f.features.length,
        labelMap := LearningModel.dedup (fs.map (fun f => f.label)),
        net := some ⟨(match fs with
          | [] => st.inputSize
          | f :: _ => f.features.length),
          (LearningModel.dedup (fs.map (fun f => f.label))).length, []⟩,
        isInitialized := true } := by
  simp [LearningModel.initModel, h]

/-- `addPattern` written as the exact chain it runs, given that the
knowledge-base steps succeed. -/
theorem addPattern_eq (ms : MemorySystem.State) (c : Candidate) (now : Int)
    (kb₁ kb₂ : KnowledgeBase.State) (hs : ms.storage.initialized = true)
    (hki : KnowledgeBase.addKnowledgeItems
      (KnowledgeBase.extractKnowledge ms.kb (savedRecord ms.storage c now) now).2
      (KnowledgeBase.extractKnowledge ms.kb (savedRecord ms.storage c now)
        now).1.extractedItems = .ok kb₁)
    (hkr : MemorySystem.addRels kb₁
      (KnowledgeBase.extractKnowledge ms.kb (savedRecord ms.storage c now)
        now).1.relationships = .ok kb₂) :
    MemorySystem.addPattern ms c now =
      (match LearningModel.updateModel ms.model
          [MemorySystem.patternFeaturesOf (savedRecord ms.storage c now)] true with
       | .ok model => .ok ⟨savedState ms.storage c now, kb₂, model⟩
       | .error _ =>
          (do
            let all ← PatternStorage.queryPatterns (savedState ms.storage c now) {} now
            let allFeatures := all.map MemorySystem.patternFeaturesOf
            let m₂ := LearningModel.initModel (LearningModel.dispose ms.model)
              allFeatures
            let m₃ ← LearningModel.train m₂ allFeatures
            .ok ⟨savedState ms.storage c now, kb₂, m₃⟩ :
            Except String MemorySystem.State)) := by
  unfold MemorySystem.addPattern
  rw [savePattern_eq ms.storage c now hs]
  simp only [Bind.bind, Except.bind, hki, hkr]

/-- On an initialized store and knowledge base, `addPattern` always succeeds,
and its storage and knowledge-base components do not depend on which
classifier branch ran. -/
theorem addPattern_ok_state (ms : MemorySystem.State) (c : Candidate) (now : Int)
    (kb₁ kb₂ : KnowledgeBase.State) (hs : ms.storage.initialized = true)
    (hki : KnowledgeBase.addKnowledgeItems
      (KnowledgeBase.extractKnowledge ms.kb (savedRecord ms.storage c now) now).2
      (KnowledgeBase.extractKnowledge ms.kb (savedRecord ms.storage c now)
        now).1.extractedItems = .ok kb₁)
    (hkr : MemorySystem.addRels kb₁
      (KnowledgeBase.extractKnowledge ms.kb (savedRecord ms.storage c now)
        now).1.relationships = .ok kb₂) :
    ∃ m₂, MemorySystem.addPattern ms c now =
      .ok ⟨savedState ms.storage c now, kb₂, m₂⟩ := by
  rw [addPattern_eq ms c now kb₁ kb₂ hs hki hkr]
  cases hum : LearningModel.updateModel ms.model
      [MemorySystem.patternFeaturesOf (savedRecord ms.storage c now)] true with
  | ok m => exact ⟨m, rfl⟩
  | error e =>
    rw [queryPatterns_all _ now (by rw [savedState_initialized]; exact hs)]
    simp only [Bind.bind, Except.bind]
    rw [train_ok _ _ ⟨(match ((savedState ms.storage c now).patterns.map
        Prod.snd).map MemorySystem.patternFeaturesOf with
          | [] => (LearningModel.dispose ms.model).inputSize
          | f :: _ => f.features.length),
        (LearningModel.dedup ((((savedState ms.storage c now).patterns.map
          Prod.snd).map MemorySystem.patternFeaturesOf).map (fun f => f.label))).length,
        []⟩ ?_ ?_]
    · exact ⟨_, rfl⟩
    · rw [initModel_fresh _ _ (by rfl)]
    · rw [initModel_fresh _ _ (by rfl)]

/-! ## Claim C2 — when the full-rebuild fallback runs -/

/-- C2 counterexample: adding a pattern whose label `"b"` was never seen at
classifier-initialize time does *not* trigger the full rebuild — the
incremental update succeeds (`prepareTrainingData` silently one-hot-encodes
the unknown label as index 0, i.e. as `"a"`), the label map stays `["a"]`,
and the single fitted batch carries the one-hot row `[1]` for label `"a"`.
Had the fallback run, the classifier would have been reinitialized with
label map `["b"]`. -/
theorem addPattern_new_label_no_fallback :
    c2Run = some (["a"], [[[1]]]) ∧ "b" ∉ (["a"] : List String) :=
  ⟨by decide, by decide⟩

theorem map_label_features (l : List Pattern) :
    (l.map MemorySystem.patternFeaturesOf).map (fun f => f.label) =
      l.map Pattern.type := by
  simp [List.map_map]
  exact fun a _ => rfl

/-- C2 (amended): the full rebuild — recompute features for every pattern in
the store, dispose, reinitialize, retrain on the whole corpus — runs exactly
when the incremental `updateModel` call raises an error (for instance when
the classifier was never initialized); when the classifier is ready the
incremental path always succeeds, leaving the label map unchanged and
appending exactly one single-record batch, even when the pattern carries a
previously-unseen label. -/
theorem addPattern_fallback_policy (ms : MemorySystem.State) (c : Candidate)
    (now : Int) (hs : ms.storage.initialized = true)
    (hk : ms.kb.initialized = true) :
    (LearningModel.ready ms.model = false →
      ∃ ms₂, MemorySystem.addPattern ms c now = .ok ms₂ ∧
        ms₂.model.isInitialized = true ∧
        ms₂.model.labelMap = LearningModel.dedup
          ((ms₂.storage.patterns.map Prod.snd).map Pattern.type) ∧
        ∃ net, ms₂.model.net = some net ∧
          net.fitLog = [LearningModel.prepareTrainingData ms₂.model
            ((ms₂.storage.patterns.map Prod.snd).map
              MemorySystem.patternFeaturesOf)]) ∧
    (LearningModel.ready ms.model = true →
      ∃ ms₂, MemorySystem.addPattern ms c now = .ok ms₂ ∧
        ms₂.model.labelMap = ms.model.labelMap ∧
        ∃ net net₂, ms.model.net = some net ∧ ms₂.model.net = some net₂ ∧
          net₂.fitLog = net.fitLog ++ [LearningModel.prepareTrainingData ms.model
            [MemorySystem.patternFeaturesOf (savedRecord ms.storage c now)]]) := by
  have hk₀ : (KnowledgeBase.extractKnowledge ms.kb (savedRecord ms.storage c now)
      now).2.initialized = true := hk
  obtain ⟨kb₁, hki, hi₁⟩ := addKnowledgeItems_ok
    (KnowledgeBase.extractKnowledge ms.kb (savedRecord ms.storage c now)
      now).1.extractedItems _ hk₀
  obtain ⟨kb₂, hkr, hi₂⟩ := addRels_ok
    (KnowledgeBase.extractKnowledge ms.kb (savedRecord ms.storage c now)
      now).1.relationships kb₁ hi₁
  constructor
  · intro hnr
    rw [addPattern_eq ms c now kb₁ kb₂ hs hki hkr]
    simp only [updateModel_not_ready _ _ _ hnr]
    rw [queryPatterns_all _ now (by rw [savedState_initialized]; exact hs)]
    simp only [Bind.bind, Except.bind]
    rw [train_ok _ _ ⟨(match ((savedState ms.storage c now).patterns.map
        Prod.snd).map MemorySystem.patternFeaturesOf with
          | [] => (LearningModel.dispose ms.model).inputSize
          | f :: _ => f.features.length),
        (LearningModel.dedup ((((savedState ms.storage c now).patterns.map
          Prod.snd).map MemorySystem.patternFeaturesOf).map
            (fun f => f.label))).length, []⟩ ?_ ?_]
    · refine ⟨_, rfl, rfl, ?_, ?_⟩
      · show LearningModel.dedup ((((savedState ms.storage c now).patterns.map
          Prod.snd).map MemorySystem.patternFeaturesOf).map (fun f => f.label)) = _
        rw [map_label_features]
      · exact ⟨_, rfl, rfl⟩
    · rw [initModel_fresh _ _ (by rfl)]
    · rw [initModel_fresh _ _ (by rfl)]
  · intro hr
    have hab : ms.model.isInitialized = true ∧ ms.model.net.isSome = true := by
      have h₂ := hr
      unfold LearningModel.ready at h₂
      simpa using h₂
    obtain ⟨hi, hn⟩ := hab
    obtain ⟨net, hnet⟩ := Option.isSome_iff_exists.mp hn
    rw [addPattern_eq ms c now kb₁ kb₂ hs hki hkr]
    simp only [updateModel_ready ms.model _ net hi hnet]
    exact ⟨_, rfl, rfl, net, _, hnet, rfl, rfl⟩

/-- C2 witness: the amended policy applied at a system with an uninitialized
classifier (fallback branch) — the hypotheses are discharged concretely. -/
theorem addPattern_fallback_policy_witness :
    msE.storage.initialized = true ∧ msE.kb.initialized = true ∧
    ((LearningModel.ready msE.model = false →
      ∃ ms₂, MemorySystem.addPattern msE candB2 0 = .ok ms₂ ∧
        ms₂.model.isInitialized = true ∧
        ms₂.model.labelMap = LearningModel.dedup
          ((ms₂.storage.patterns.map Prod.snd).map Pattern.type) ∧
        ∃ net, ms₂.model.net = some net ∧
          net.fitLog = [LearningModel.prepareTrainingData ms₂.model
            ((ms₂.storage.patterns.map Prod.snd).map
              MemorySystem.patternFeaturesOf)]) ∧
    (LearningModel.ready msE.model = true →
      ∃ ms₂, MemorySystem.addPattern msE candB2 0 = .ok ms₂ ∧
        ms₂.model.labelMap = msE.model.labelMap ∧
        ∃ net net₂, msE.model.net = some net ∧ ms₂.model.net = some net₂ ∧
          net₂.fitLog = net.fitLog ++ [LearningModel.prepareTrainingData msE.model
            [MemorySystem.patternFeaturesOf (savedRecord msE.storage candB2 0)]])) :=
  ⟨rfl, rfl, addPattern_fallback_policy msE candB2 0 rfl rfl⟩

/-! ## Claim C10 — extraction is not idempotent at the graph level -/

/-- When extraction yields an item, it yields exactly one, carrying the next
fresh id; no pairwise relationships are ever synthesized (extraction never
returns more than one item), and the only state change is the fresh-id
counter advancing. -/
theorem extract_shape (st : KnowledgeBase.State) (p : Pattern) (now : Int)
    (hy : extractYields p.type p.data = true) :
    ∃ it, (KnowledgeBase.extractKnowledge st p now).1.extractedItems = [it] ∧
      it.id = KnowledgeBase.genKnowledgeId st.nextId ∧
      (KnowledgeBase.extractKnowledge st p now).1.relationships = [] ∧
      (KnowledgeBase.extractKnowledge st p now).2 =
        { st with nextId := st.nextId + 1 } := by
  unfold extractYields at hy
  unfold KnowledgeBase.extractKnowledge
  by_cases h1 : p.type = "behavioral"
  · rw [if_pos h1] at hy
    rw [if_pos h1]
    obtain ⟨ht, ha⟩ : (KnowledgeBase.truthyLookup "trigger" p.data).isSome = true ∧
        (KnowledgeBase.truthyLookup "action" p.data).isSome = true := by
      simpa using hy
    obtain ⟨t, htv⟩ := Option.isSome_iff_exists.mp ht
    obtain ⟨a, hav⟩ := Option.isSome_iff_exists.mp ha
    unfold KnowledgeBase.extractBehavioralKnowledge
    rw [htv, hav]
    exact ⟨_, rfl, rfl, rfl, rfl⟩
  · rw [if_neg h1] at hy
    rw [if_neg h1]
    by_cases h2 : p.type = "temporal"
    · rw [if_pos h2] at hy
      rw [if_pos h2]
      unfold KnowledgeBase.extractTemporalKnowledge
      split at hy
      next xs heq =>
        exact ⟨_, rfl, rfl, rfl, rfl⟩
      next => simp at hy
    · rw [if_neg h2] at hy
      rw [if_neg h2]
      by_cases h3 : p.type = "sequential"
      · rw [if_pos h3] at hy
        rw [if_pos h3]
        unfold KnowledgeBase.extractSequentialKnowledge
        split at hy
        next xs heq =>
          exact ⟨_, rfl, rfl, rfl, rfl⟩
        next => simp at hy
      · rw [if_neg h3] at hy
        rw [if_neg h3]
        by_cases h4 : p.type = "categorical"
        · rw [if_pos h4] at hy
          rw [if_pos h4]
          obtain ⟨hc, hi⟩ :
              (KnowledgeBase.truthyLookup "category" p.data).isSome = true ∧
              (KnowledgeBase.truthyLookup "items" p.data).isSome = true := by
            simpa using hy
          obtain ⟨cat, hcv⟩ := Option.isSome_iff_exists.mp hc
          obtain ⟨its, hiv⟩ := Option.isSome_iff_exists.mp hi
          unfold KnowledgeBase.extractCategoricalKnowledge
          rw [hcv, hiv]
          exact ⟨_, rfl, rfl, rfl, rfl⟩
        · rw [if_neg h4]
          unfold KnowledgeBase.extractGenericKnowledge
          exact ⟨_, rfl, rfl, rfl, rfl⟩

theorem addKnowledge_below_cap (kb : KnowledgeBase.State) (it : KnowledgeItem)
    (h : kb.initialized = true) (hcap : kb.items.length < kb.maxItems) :
    KnowledgeBase.addKnowledge kb it = .ok (addedKB kb it) := by
  unfold KnowledgeBase.addKnowledge addedKB
  simp only [h, Bool.not_true, Bool.false_eq_true, if_false]
  rw [if_neg (by omega : ¬ kb.items.length ≥ kb.maxItems), h]

theorem addKnowledgeItems_single (kb : KnowledgeBase.State) (it : KnowledgeItem)
    (h : kb.initialized = true) (hcap : kb.items.length < kb.maxItems) :
    KnowledgeBase.addKnowledgeItems kb [it] = .ok (addedKB kb it) := by
  have hres := addKnowledge_below_cap kb it h hcap
  unfold KnowledgeBase.addKnowledgeItems
  simp only [h, Bool.not_true, Bool.false_eq_true, if_false, hres, Bind.bind,
    Except.bind]
  unfold KnowledgeBase.addKnowledgeItems
  simp only [show (addedKB kb it).initialized = true from h, Bool.not_true,
    Bool.false_eq_true, if_false]

/-- C10: adding the identical candidate twice upserts a single pattern
record, but each call extracts a fresh-id knowledge item, so the graph item
count strictly increases on each call while below `maxItems` capacity. The
freshness hypotheses state exactly what the timestamp-plus-random id supply
of `generateKnowledgeId` provides: the next two generated ids are distinct
and not already keys of the item map. -/
theorem addPattern_knowledge_grows (ms : MemorySystem.State) (c : Candidate)
    (now₁ now₂ : Int)
    (hs : ms.storage.initialized = true) (hk : ms.kb.initialized = true)
    (hy : extractYields c.type c.data = true)
    (hcap : ms.kb.items.length + 1 < ms.kb.maxItems)
    (hf1 : lookupA (KnowledgeBase.genKnowledgeId ms.kb.nextId) ms.kb.items = none)
    (hf2 : lookupA (KnowledgeBase.genKnowledgeId (ms.kb.nextId + 1)) ms.kb.items = none)
    (hne : KnowledgeBase.genKnowledgeId (ms.kb.nextId + 1) ≠
      KnowledgeBase.genKnowledgeId ms.kb.nextId) :
    ∃ ms₁ ms₂, MemorySystem.addPattern ms c now₁ = .ok ms₁ ∧
      MemorySystem.addPattern ms₁ c now₂ = .ok ms₂ ∧
      ms₂.storage.patterns.length = ms₁.storage.patterns.length ∧
      lookupA (generatePatternId c) ms₂.storage.patterns =
        some (savedRecord ms₁.storage c now₂) ∧
      ms₁.kb.items.length = ms.kb.items.length + 1 ∧
      ms₂.kb.items.length = ms.kb.items.length + 2 := by
  obtain ⟨it₁, hitems₁, hid₁, hrels₁, hst₁⟩ :=
    extract_shape ms.kb (savedRecord ms.storage c now₁) now₁ hy
  have hki₁ : KnowledgeBase.addKnowledgeItems
      (KnowledgeBase.extractKnowledge ms.kb (savedRecord ms.storage c now₁) now₁).2
      (KnowledgeBase.extractKnowledge ms.kb (savedRecord ms.storage c now₁)
        now₁).1.extractedItems =
      .ok (addedKB { ms.kb with nextId := ms.kb.nextId + 1 } it₁) := by
    rw [hitems₁, hst₁]
    exact addKnowledgeItems_single _ it₁ hk
      (by show ms.kb.items.length < ms.kb.maxItems; omega)
  have hkr₁ : MemorySystem.addRels (addedKB { ms.kb with nextId := ms.kb.nextId + 1 } it₁)
      (KnowledgeBase.extractKnowledge ms.kb (savedRecord ms.storage c now₁)
        now₁).1.relationships =
      .ok (addedKB { ms.kb with nextId := ms.kb.nextId + 1 } it₁) := by
    rw [hrels₁]
    rfl
  obtain ⟨m₁, hrun₁⟩ := addPattern_ok_state ms c now₁ _ _ hs hki₁ hkr₁
  have hlen₁ : (addedKB { ms.kb with nextId := ms.kb.nextId + 1 } it₁).items.length =
      ms.kb.items.length + 1 := by
    show (setA it₁.id it₁ ms.kb.items).length = ms.kb.items.length + 1
    rw [hid₁]
    exact length_setA_none _ hf1
  set ms₁ : MemorySystem.State :=
    ⟨savedState ms.storage c now₁,
      addedKB { ms.kb with nextId := ms.kb.nextId + 1 } it₁, m₁⟩ with hms₁
  have hs₂ : ms₁.storage.initialized = true := by
    show (savedState ms.storage c now₁).initialized = true
    rw [savedState_initialized]
    exact hs
  have hk₂ : ms₁.kb.initialized = true := hk
  obtain ⟨it₂, hitems₂, hid₂, hrels₂, hst₂⟩ :=
    extract_shape ms₁.kb (savedRecord ms₁.storage c now₂) now₂ hy
  have hfresh₂ : lookupA it₂.id ms₁.kb.items = none := by
    rw [hid₂]
    show lookupA (KnowledgeBase.genKnowledgeId (ms.kb.nextId + 1))
      (setA it₁.id it₁ ms.kb.items) = none
    rw [hid₁] at *
    rw [lookupA_setA_ne _ _ hne]
    exact hf2
  have hki₂ : KnowledgeBase.addKnowledgeItems
      (KnowledgeBase.extractKnowledge ms₁.kb (savedRecord ms₁.storage c now₂) now₂).2
      (KnowledgeBase.extractKnowledge ms₁.kb (savedRecord ms₁.storage c now₂)
        now₂).1.extractedItems =
      .ok (addedKB { ms₁.kb with nextId := ms₁.kb.nextId + 1 } it₂) := by
    rw [hitems₂, hst₂]
    exact addKnowledgeItems_single _ it₂ hk₂
      (by show (addedKB { ms.kb with nextId := ms.kb.nextId + 1 } it₁).items.length <
            ms.kb.maxItems
          omega)
  have hkr₂ : MemorySystem.addRels
      (addedKB { ms₁.kb with nextId := ms₁.kb.nextId + 1 } it₂)
      (KnowledgeBase.extractKnowledge ms₁.kb (savedRecord ms₁.storage c now₂)
        now₂).1.relationships =
      .ok (addedKB { ms₁.kb with nextId := ms₁.kb.nextId + 1 } it₂) := by
    rw [hrels₂]
    rfl
  obtain ⟨m₂, hrun₂⟩ := addPattern_ok_state ms₁ c now₂ _ _ hs₂ hki₂ hkr₂
  refine ⟨ms₁, _, hrun₁, hrun₂, ?_, ?_, hlen₁, ?_⟩
  · have hlk : lookupA (generatePatternId c) ms₁.storage.patterns =
        some (savedRecord ms.storage c now₁) := by
      show lookupA (generatePatternId c) (savedState ms.storage c now₁).patterns = _
      rw [savedState_patterns]
      exact lookupA_setA_self ..
    show (savedState ms₁.storage c now₂).patterns.length =
      ms₁.storage.patterns.length
    rw [savedState_patterns]
    exact length_setA_some _ hlk
  · show lookupA (generatePatternId c) (savedState ms₁.storage c now₂).patterns =
      some (savedRecord ms₁.storage c now₂)
    rw [savedState_patterns]
    exact lookupA_setA_self ..
  · show (setA it₂.id it₂ ms₁.kb.items).length = ms.kb.items.length + 2
    rw [length_setA_none _ hfresh₂]
    have h₃ : ms₁.kb.items.length = ms.kb.items.length + 1 := hlen₁
    omega

/-- C10 witness: two identical `addPattern` calls on a fresh system, with the
freshness side conditions discharged concretely. -/
theorem addPattern_knowledge_grows_witness :
    msFresh.storage.initialized = true ∧ msFresh.kb.initialized = true ∧
    extractYields candA.type candA.data = true ∧
    msFresh.kb.items.length + 1 < msFresh.kb.maxItems ∧
    lookupA (KnowledgeBase.genKnowledgeId msFresh.kb.nextId) msFresh.kb.items = none ∧
    lookupA (KnowledgeBase.genKnowledgeId (msFresh.kb.nextId + 1)) msFresh.kb.items =
      none ∧
    KnowledgeBase.genKnowledgeId (msFresh.kb.nextId + 1) ≠
      KnowledgeBase.genKnowledgeId msFresh.kb.nextId ∧
    (∃ ms₁ ms₂, MemorySystem.addPattern msFresh candA 0 = .ok ms₁ ∧
      MemorySystem.addPattern ms₁ candA 1 = .ok ms₂ ∧
      ms₂.storage.patterns.length = ms₁.storage.patterns.length ∧
      lookupA (generatePatternId candA) ms₂.storage.patterns =
        some (savedRecord ms₁.storage candA 1) ∧
      ms₁.kb.items.length = msFresh.kb.items.length + 1 ∧
      ms₂.kb.items.length = msFresh.kb.items.length + 2) :=
  ⟨rfl, rfl, by decide, by decide, rfl, rfl, by decide,
    addPattern_knowledge_grows msFresh candA 0 1 rfl rfl (by decide) (by decide)
      rfl rfl (by decide)⟩

end SelfLearning
